import Mathlib

/-!
# useGame: peer directory and meeting-room signaling

A shallow embedding of `src/frontend/src/components/Game/useGame.js` and of the
`Sprite` constructor of `src/frontend/src/components/Game/Sprite.js`.

React state (`useState`) and refs (`useRef`) are fields of one explicit record,
`HookState`; every handler is a function from the record to the record.  A
JavaScript object used as a dictionary is an association list in insertion
order, with string keys.  Numbers are integers.  An `async` socket listener is
run to completion as one step (listeners are serialized by the event loop and
the awaited calls on a peer connection are taken to resolve).  The callback
`initializeMeetingRoomCall`, which the tick calls without awaiting it, is split
at its `await` of `getUserMedia`: the tick runs it up to the request, and the
rest runs as a step of its own when the request settles.  Every call the hook
makes on a browser object is appended to a log kept in the record.
-/

namespace UseGame

/-! ## JavaScript objects used as dictionaries -/

/-- A JavaScript object with string keys, own properties in insertion order.
The keys are socket ids and never name a property of `Object.prototype`, so a
read of a key that is not an own property gives `undefined`. -/
abbrev Dict (α : Type) := List (String × α)

namespace Dict

/-- Property read `obj[k]`: the value stored under the key, if any. -/
def get {α : Type} (d : Dict α) (k : String) : Option α :=
  match d with
  | [] => none
  | (k', v) :: rest => if k' = k then some v else get rest k

/-- The statement `delete obj[k]`. -/
def delete {α : Type} (d : Dict α) (k : String) : Dict α :=
  match d with
  | [] => []
  | (k', v) :: rest => if k' = k then delete rest k else (k', v) :: delete rest k

/-- Assignment `obj[k] = v`, and the spread literal `{ ...obj, [k]: v }`: an own
key keeps its place, a new key goes last. -/
def set {α : Type} (d : Dict α) (k : String) (v : α) : Dict α :=
  match d with
  | [] => [(k, v)]
  | (k', v') :: rest => if k' = k then (k', v) :: rest else (k', v') :: set rest k v

/-- The array `Object.keys(obj)`. -/
def keys {α : Type} (d : Dict α) : List String := d.map Prod.fst

/-- The array `Object.values(obj)`. -/
def values {α : Type} (d : Dict α) : List α := d.map Prod.snd

end Dict

/-! ## Sprite.js -/

/-- A point `{ x, y }`. -/
structure Position where
  x : Int
  y : Int
  deriving DecidableEq, Repr

/-- A loaded `HTMLImageElement`, named by its source path. -/
abbrev Image := String

/-- The `frames` field of a sprite: `{ ...frames, val: 0, elapsed: 0 }`. -/
structure Frames where
  max : Nat
  val : Nat
  elapsed : Nat
  deriving DecidableEq, Repr

/-- An instance of `class Sprite`, with every field its constructor sets. -/
structure Sprite where
  position : Position
  image : Option Image
  frames : Frames
  sprites : Option Image
  name : String
  id : Option String
  speed : Nat
  lastDirection : String
  moving : Bool
  prevMoving : Bool
  characterIndex : Int
  width : Nat
  height : Nat
  distanceToPlayer : Option Int
  showInteractionMenu : Bool
  interactingWith : Option String
  dialogue : Option String
  dialogueTimer : Nat
  deriving DecidableEq, Repr

/-- The expression `a || b` on an optional string: `undefined` and the empty
string are falsy. -/
def strOr (a : Option String) (b : String) : String :=
  match a with
  | none => b
  | some s => if s = "" then b else s

/-- The expression `a || false` and the expression `!!a` on an optional
boolean. -/
def truthy (a : Option Bool) : Bool :=
  match a with
  | none => false
  | some v => v

/-- The expression `n || 2` on a number: zero is falsy. -/
def numOr (n : Nat) (d : Nat) : Nat := if n = 0 then d else n

/-- The arguments both directory handlers pass to `new Sprite({...})`:
`position`, `image`, `frames: { max: 4 }`, `sprites`, `name`, `id`, `speed: 3`,
`lastDirection`, `moving`, `characterIndex`. -/
def Sprite.new (position : Position) (image : Option Image) (framesMax : Nat)
    (sprites : Option Image) (name : Option String) (id : Option String) (speed : Nat)
    (lastDirection : String) (moving : Bool) (characterIndex : Int) : Sprite :=
  { position := position
    image := image
    frames := { max := framesMax, val := 0, elapsed := 0 }
    sprites := sprites
    name := strOr (strOr name "") ""
    id := id
    speed := numOr speed 2
    lastDirection := lastDirection
    moving := moving
    prevMoving := moving
    characterIndex := characterIndex
    width := 15
    height := 15
    distanceToPlayer := none
    showInteractionMenu := false
    interactingWith := none
    dialogue := none
    dialogueTimer := 0 }

/-! ## The player payloads of the transport -/

/-- The payload of `newPlayer` and `playerMoved`, and one value of the
`currentPlayers` snapshot: every field but `id` and `position` may be
`undefined`. -/
structure PlayerInfo where
  id : String
  position : Position
  name : Option String
  characterIndex : Option Int
  direction : Option String
  moving : Option Bool
  deriving DecidableEq, Repr

/-- The ternary `info.characterIndex !== undefined ? info.characterIndex % 4 : 0`;
the remainder of JavaScript takes the sign of the dividend. -/
def charIndexOf (characterIndex : Option Int) : Int :=
  match characterIndex with
  | none => 0
  | some n => Int.tmod n 4

/-- Array read `characterImages[i]`: `undefined` outside the array. -/
def imageAt (characterImages : List Image) (i : Int) : Option Image :=
  if i < 0 then none else characterImages.get? i.toNat

/-! ## Browser objects and the transport -/

/-- A `MediaStream`: its id and the tracks `getTracks()` returns. -/
structure MediaStream where
  id : String
  tracks : List String
  deriving DecidableEq, Repr

/-- The `type` of a session description. -/
inductive SdpType where
  | offer
  | answer
  deriving DecidableEq, Repr

/-- An `RTCSessionDescription`. -/
structure SessionDescription where
  type : SdpType
  sdp : String
  deriving DecidableEq, Repr

/-- An ICE candidate, as carried by `meeting-ice-candidate`. -/
abbrev Candidate := String

/-- The `signalingState` of a connection: `"stable"`, `"have-local-offer"`,
`"have-remote-offer"`, `"closed"`. -/
inductive SignalingState where
  | stable
  | haveLocalOffer
  | haveRemoteOffer
  | closed
  deriving DecidableEq, Repr

/-- A method call the hook makes on an `RTCPeerConnection`. -/
inductive PcCall where
  | addTrack (track : String)
  | createOffer
  | createAnswer
  | setLocalDescription (d : SessionDescription)
  | setRemoteDescription (d : SessionDescription)
  | addIceCandidate (c : Candidate)
  | close
  deriving DecidableEq, Repr

/-- An `RTCPeerConnection` as the hook sees it: which object it is (`handle`,
the number of connections constructed before it) and the two properties the hook
reads, `remoteDescription` and `signalingState`. -/
structure PeerConnection where
  handle : Nat
  remoteDescription : Option SessionDescription
  signalingState : SignalingState
  deriving DecidableEq, Repr

/-- What a method call does to the properties the hook reads: a description set
on the remote side is readable as `remoteDescription`; an offer set locally
gives `"have-local-offer"`, set remotely `"have-remote-offer"`, an answer gives
`"stable"`; `close` gives `"closed"`. -/
def PeerConnection.after (pc : PeerConnection) (c : PcCall) : PeerConnection :=
  match c with
  | .setRemoteDescription d =>
    { pc with
      remoteDescription := some d
      signalingState :=
        match d.type with
        | .offer => .haveRemoteOffer
        | .answer => .stable }
  | .setLocalDescription d =>
    { pc with
      signalingState :=
        match d.type with
        | .offer => .haveLocalOffer
        | .answer => .stable }
  | .close => { pc with signalingState := .closed }
  | _ => pc

/-- The ICE configuration held in `iceConfig`: `iceServers` is `none` when the
property is missing or not an array. -/
structure IceConfig where
  iceServers : Option (List String)
  deriving DecidableEq, Repr

/-- The fallback `{ iceServers: [{ urls: "stun:stun.l.google.com:19302" }] }`. -/
def fallbackIceConfig : IceConfig := { iceServers := some ["stun:stun.l.google.com:19302"] }

/-- The state of the meeting call, `meetingRoomCall`. -/
structure MeetingRoomCall where
  active : Bool
  localStream : Option MediaStream
  remoteStreams : Dict MediaStream
  deriving DecidableEq, Repr

/-- An outbound `socket.emit`. -/
inductive Emit where
  | requestPlayers
  | playerInteraction (targetId : String)
  | joinMeetingRoom
  | leaveMeetingRoom
  | meetingOffer (dest : String) (offer : SessionDescription)
  | meetingAnswer (dest : String) (answer : SessionDescription)
  | meetingIceCandidate (dest : String) (candidate : Candidate)
  deriving DecidableEq, Repr

/-- The meeting listeners one run of `initializeMeetingRoomCall` registers on
the socket, that is the variables their closures share: the captured `stream`
and `iceConfig`, `isInitiator`, `candidateQueue`, and whether the `once`
listener of `meeting-existing-participants` is still registered. -/
structure MeetingListeners where
  stream : MediaStream
  iceConfig : IceConfig
  isInitiator : Bool
  candidateQueue : Dict (List Candidate)
  existingParticipants : Bool
  deriving DecidableEq, Repr

/-- What the browser answers: `getUserMedia` resolves with a stream or rejects
(`none`); `new RTCPeerConnection(config)` returns (`true`) or throws; the SDP
that `createOffer` and `createAnswer` produce on the connection with a given
handle. -/
structure Browser where
  getUserMedia : Option MediaStream
  constructs : IceConfig → Bool
  createOffer : Nat → String
  createAnswer : Nat → String

/-- A run of `initializeMeetingRoomCall` suspended at its `await` of
`getUserMedia`: the `iceConfig` its closure captured and what the browser
settles the request with, a stream or a rejection (`none`). -/
structure PendingCall where
  iceConfig : IceConfig
  outcome : Option MediaStream
  deriving DecidableEq, Repr

/-- A collision rectangle of `boundaries`. -/
structure Boundary where
  x : Int
  y : Int
  width : Int
  height : Int
  deriving DecidableEq, Repr

/-! ## The state of the hook -/

/-- The state and refs of `useGame`, the socket of `socketRef` (`socketId` is
`none` while `socketRef.current` is null; `emitted` is what was sent on it;
`listeners` are the meeting listeners registered on it), and the logs of the
calls made on browser objects: `pcCalls` on peer connections, by handle,
`stoppedTracks` for `track.stop()`, `rejections` for the errors an `async`
listener ended with; `pendingCalls` are the runs of `initializeMeetingRoomCall`
that wait for their `getUserMedia` request, oldest first. -/
structure HookState where
  player : Option Sprite
  otherPlayers : Dict Sprite
  boundaries : List Boundary
  playerName : String
  playerCount : Int
  characterImages : List Image
  playerProximityState : Dict Bool
  isInArea2 : Bool
  meetingRoomCall : MeetingRoomCall
  meetingPeerConnections : Dict PeerConnection
  iceConfig : Option IceConfig
  socketId : Option String
  emitted : List Emit
  listeners : Option MeetingListeners
  constructed : Nat
  pcCalls : List (Nat × PcCall)
  stoppedTracks : List String
  rejections : List String
  pendingCalls : List PendingCall
  deriving DecidableEq, Repr

/-- The hook at mount: the initial values of every `useState` and `useRef`. -/
def HookState.initial : HookState :=
  { player := none
    otherPlayers := []
    boundaries := []
    playerName := ""
    playerCount := 1
    characterImages := []
    playerProximityState := []
    isInArea2 := false
    meetingRoomCall := { active := false, localStream := none, remoteStreams := [] }
    meetingPeerConnections := []
    iceConfig := none
    socketId := none
    emitted := []
    listeners := none
    constructed := 0
    pcCalls := []
    stoppedTracks := []
    rejections := []
    pendingCalls := [] }

/-! ## The peer directory (`otherPlayers`) -/

/-- The sprite both `handleCurrentPlayers` and `handleNewPlayer` build for a
player. -/
def spriteFor (characterImages : List Image) (id : String) (data : PlayerInfo) : Sprite :=
  let charIndex := charIndexOf data.characterIndex
  Sprite.new data.position (imageAt characterImages charIndex) 4
    (imageAt characterImages charIndex) data.name (some id) 3
    (strOr data.direction "down") (truthy data.moving) charIndex

/-- The listener of `currentPlayers`; `players` is the snapshot object, keyed by
id. -/
def handleCurrentPlayers (players : Dict PlayerInfo) (s : HookState) : HookState :=
  if s.characterImages.length = 0 then s
  else
    let others : Dict Sprite :=
      players.foldl (fun acc e => acc.set e.1 (spriteFor s.characterImages e.1 e.2)) []
    { s with
      otherPlayers := others
      playerCount := (players.keys.length : Int) + 1 }

/-- The listener of `newPlayer`. -/
def handleNewPlayer (playerInfo : PlayerInfo) (s : HookState) : HookState :=
  if s.characterImages.length = 0 then s
  else
    { s with
      otherPlayers :=
        match s.otherPlayers.get playerInfo.id with
        | some _ => s.otherPlayers
        | none =>
          s.otherPlayers.set playerInfo.id
            (spriteFor s.characterImages playerInfo.id playerInfo)
      playerCount := s.playerCount + 1 }

/-- The listener of `playerMoved`. -/
def handlePlayerMoved (playerInfo : PlayerInfo) (s : HookState) : HookState :=
  { s with
    otherPlayers :=
      match s.otherPlayers.get playerInfo.id with
      | none => s.otherPlayers
      | some sprite =>
        s.otherPlayers.set playerInfo.id
          { sprite with
            position := playerInfo.position
            lastDirection := strOr playerInfo.direction sprite.lastDirection
            moving := truthy playerInfo.moving } }

/-- The listener of `playerDisconnected`. -/
def handlePlayerDisconnected (playerId : String) (s : HookState) : HookState :=
  { s with
    otherPlayers := s.otherPlayers.delete playerId
    playerCount := s.playerCount - 1 }

/-- A player event delivered by the transport. -/
inductive PlayerEvent where
  | currentPlayers (players : Dict PlayerInfo)
  | newPlayer (playerInfo : PlayerInfo)
  | playerMoved (playerInfo : PlayerInfo)
  | playerDisconnected (playerId : String)
  deriving DecidableEq, Repr

/-- The listener the socket runs for a player event. -/
def onPlayerEvent (e : PlayerEvent) (s : HookState) : HookState :=
  match e with
  | .currentPlayers players => handleCurrentPlayers players s
  | .newPlayer playerInfo => handleNewPlayer playerInfo s
  | .playerMoved playerInfo => handlePlayerMoved playerInfo s
  | .playerDisconnected playerId => handlePlayerDisconnected playerId s

/-- The listeners run one after the other, in arrival order. -/
def onPlayerEvents (es : List PlayerEvent) (s : HookState) : HookState :=
  es.foldl (fun acc e => onPlayerEvent e acc) s

/-! ## The meeting room -/

/-- The call `socketRef.current.emit(...)`. -/
def emit (e : Emit) (s : HookState) : HookState :=
  { s with emitted := s.emitted ++ [e] }

/-- A method call on the connection stored under `participantId` in
`meetingPeerConnections.current`: it is logged under the handle of the
connection, and the properties of the connection follow it. -/
def invoke (participantId : String) (c : PcCall) (s : HookState) : HookState :=
  match s.meetingPeerConnections.get participantId with
  | none => s
  | some pc =>
    { s with
      meetingPeerConnections := s.meetingPeerConnections.set participantId (pc.after c)
      pcCalls := s.pcCalls ++ [(pc.handle, c)] }

/-- The handle of the connection stored under `participantId`. -/
def handleOf (participantId : String) (s : HookState) : Nat :=
  match s.meetingPeerConnections.get participantId with
  | some pc => pc.handle
  | none => 0

/-- The configuration `createPeerConnection` constructs a connection with: the
captured `iceConfig`, or the fallback when its `iceServers` is not an array. -/
def rtcConfigOf (iceConfig : IceConfig) : IceConfig :=
  match iceConfig.iceServers with
  | some _ => iceConfig
  | none => fallbackIceConfig

/-- The closure `createPeerConnection(participantId)` of a run of
`initializeMeetingRoomCall` that captured `stream` and `iceConfig`: the stored
connection when there is one; otherwise a new connection, constructed with the
captured configuration (the fallback when it has no `iceServers` array), stored
under `participantId` and given the tracks of the stream.  The result is the
state in which `meetingPeerConnections.current[participantId]` is the returned
connection, or the error the constructor threw. -/
def createPeerConnection (b : Browser) (stream : MediaStream) (iceConfig : IceConfig)
    (participantId : String) (s : HookState) : Except String HookState :=
  match s.meetingPeerConnections.get participantId with
  | some _ => .ok s
  | none =>
    if b.constructs (rtcConfigOf iceConfig) then
      let pc : PeerConnection :=
        { handle := s.constructed, remoteDescription := none, signalingState := .stable }
      .ok
        { s with
          constructed := s.constructed + 1
          meetingPeerConnections := s.meetingPeerConnections.set participantId pc
          pcCalls := s.pcCalls ++ stream.tracks.map (fun t => (pc.handle, PcCall.addTrack t)) }
    else .error "RTCPeerConnection"

/-- The callback `pc.onicecandidate` of the connection made for
`participantId`. -/
def onicecandidate (participantId : String) (candidate : Option Candidate)
    (s : HookState) : HookState :=
  match candidate, s.socketId with
  | some c, some _ => emit (.meetingIceCandidate participantId c) s
  | _, _ => s

/-- The callback `pc.ontrack` of the connection made for `participantId` by the
closure that captured `stream`. -/
def ontrack (stream : MediaStream) (participantId : String) (streams : List MediaStream)
    (s : HookState) : HookState :=
  match streams.head? with
  | none => s
  | some remote =>
    if remote.id ≠ stream.id then
      { s with
        meetingRoomCall :=
          { s.meetingRoomCall with
            remoteStreams := s.meetingRoomCall.remoteStreams.set participantId remote } }
    else s

/-- The first listener of `meeting-ice-candidate` (the queueing one). -/
def onMeetingIceCandidateQueueing (sender : String) (candidate : Candidate)
    (s : HookState) : HookState :=
  match s.listeners with
  | none => s
  | some l =>
    match s.meetingPeerConnections.get sender with
    | none => s
    | some pc =>
      match pc.remoteDescription with
      | some _ => invoke sender (.addIceCandidate candidate) s
      | none =>
        let queued :=
          match l.candidateQueue.get sender with
          | some q => q
          | none => []
        { s with
          listeners :=
            some { l with candidateQueue := l.candidateQueue.set sender (queued ++ [candidate]) } }

/-- The loop of the `meeting-offer` listener over `candidateQueue[from]`. -/
def flushCandidates (sender : String) (queued : List Candidate) (s : HookState) : HookState :=
  queued.foldl (fun acc cand => invoke sender (.addIceCandidate cand) acc) s

/-- The listener of `meeting-offer`. -/
def onMeetingOffer (b : Browser) (sender : String) (offer : SessionDescription)
    (s : HookState) : HookState :=
  match s.listeners with
  | none => s
  | some l =>
    match createPeerConnection b l.stream l.iceConfig sender s with
    | .error e => { s with rejections := s.rejections ++ [e] }
    | .ok s1 =>
      let s2 := invoke sender (.setRemoteDescription offer) s1
      let s3 :=
        match l.candidateQueue.get sender with
        | some queued =>
          { flushCandidates sender queued s2 with
            listeners := some { l with candidateQueue := l.candidateQueue.set sender [] } }
        | none => s2
      let s4 := invoke sender .createAnswer s3
      let answer : SessionDescription :=
        { type := .answer, sdp := b.createAnswer (handleOf sender s3) }
      let s5 := invoke sender (.setLocalDescription answer) s4
      emit (.meetingAnswer sender answer) s5

/-- The listener of `meeting-answer`. -/
def onMeetingAnswer (sender : String) (answer : SessionDescription)
    (s : HookState) : HookState :=
  match s.listeners with
  | none => s
  | some _ =>
    match s.meetingPeerConnections.get sender with
    | some pc =>
      if pc.signalingState = .haveLocalOffer then
        invoke sender (.setRemoteDescription answer) s
      else s
    | none => s

/-- The second listener of `meeting-ice-candidate`. -/
def onMeetingIceCandidateDirect (sender : String) (candidate : Candidate)
    (s : HookState) : HookState :=
  match s.listeners with
  | none => s
  | some _ =>
    match s.meetingPeerConnections.get sender with
    | some _ => invoke sender (.addIceCandidate candidate) s
    | none => s

/-- The listener of `meeting-user-left`. -/
def onMeetingUserLeft (userId : String) (s : HookState) : HookState :=
  match s.listeners with
  | none => s
  | some _ =>
    let s1 :=
      { s with
        meetingRoomCall :=
          { s.meetingRoomCall with
            remoteStreams := s.meetingRoomCall.remoteStreams.delete userId } }
    match s1.meetingPeerConnections.get userId with
    | some _ =>
      let s2 := invoke userId .close s1
      { s2 with meetingPeerConnections := s2.meetingPeerConnections.delete userId }
    | none => s1

/-- The loop of the `meeting-existing-participants` listener over the
participants still to be visited, in the closure that captured `stream` and
`iceConfig`; `self` is `socketRef.current.id`.  A constructor that throws ends
the loop. -/
def offerLoop (b : Browser) (stream : MediaStream) (iceConfig : IceConfig) (self : String)
    (participants : List String) (s : HookState) : HookState :=
  match participants with
  | [] => s
  | participantId :: rest =>
    if participantId = self then offerLoop b stream iceConfig self rest s
    else
      match createPeerConnection b stream iceConfig participantId s with
      | .error e => { s with rejections := s.rejections ++ [e] }
      | .ok s1 =>
        let s2 := invoke participantId .createOffer s1
        let offer : SessionDescription :=
          { type := .offer, sdp := b.createOffer (handleOf participantId s1) }
        let s3 := invoke participantId (.setLocalDescription offer) s2
        offerLoop b stream iceConfig self rest (emit (.meetingOffer participantId offer) s3)

/-- The `once` listener of `meeting-existing-participants`. -/
def onMeetingExistingParticipants (b : Browser) (participants : List String)
    (s : HookState) : HookState :=
  match s.listeners, s.socketId with
  | some l, some self =>
    if l.existingParticipants then
      offerLoop b l.stream l.iceConfig self participants
        { s with listeners := some { l with existingParticipants := false, isInitiator := true } }
    else s
  | _, _ => s

/-- The callback `initializeMeetingRoomCall` up to its `await`: without an ICE
configuration it returns; otherwise it requests capture with `getUserMedia` and
is suspended until the request settles.  Its caller does not await it, so this
is all that runs inside the tick. -/
def initializeMeetingRoomCall (b : Browser) (s : HookState) : HookState :=
  match s.iceConfig with
  | none => s
  | some iceConfig =>
    { s with
      pendingCalls := s.pendingCalls ++ [{ iceConfig := iceConfig, outcome := b.getUserMedia }] }

/-- The rest of a run of `initializeMeetingRoomCall`, from the moment its
`getUserMedia` request settles.  A rejection goes to the `catch`, which only
logs.  With a stream the call becomes active; then the meeting listeners of the
socket are removed and registered anew, with a new `candidateQueue`, and
`joinMeetingRoom` is emitted; when `socketRef.current` is null the first
`socketRef.current.off` throws into the `catch`. -/
def resumeMeetingRoomCall (call : PendingCall) (s : HookState) : HookState :=
  match call.outcome with
  | none => s
  | some stream =>
    let s1 :=
      { s with
        meetingRoomCall :=
          { s.meetingRoomCall with active := true, localStream := some stream } }
    match s1.socketId with
    | none => s1
    | some _ =>
      emit .joinMeetingRoom
        { s1 with
          listeners :=
            some
              { stream := stream
                iceConfig := call.iceConfig
                isInitiator := false
                candidateQueue := []
                existingParticipants := true } }

/-- The oldest pending `getUserMedia` request settles and its run of
`initializeMeetingRoomCall` resumes. -/
def onUserMedia (s : HookState) : HookState :=
  match s.pendingCalls with
  | [] => s
  | call :: rest => resumeMeetingRoomCall call { s with pendingCalls := rest }

/-- The callback `cleanupMeetingRoom`. -/
def cleanupMeetingRoom (s : HookState) : HookState :=
  let s1 :=
    match s.meetingRoomCall.localStream with
    | some stream => { s with stoppedTracks := s.stoppedTracks ++ stream.tracks }
    | none => s
  let s2 :=
    { s1 with
      pcCalls :=
        s1.pcCalls ++
          (Dict.values s1.meetingPeerConnections).map
            (fun (pc : PeerConnection) => (pc.handle, PcCall.close))
      meetingPeerConnections := [] }
  let s3 :=
    { s2 with meetingRoomCall := { active := false, localStream := none, remoteStreams := [] } }
  match s3.socketId with
  | some _ => emit .leaveMeetingRoom s3
  | none => s3

/-- A meeting event delivered by the socket. -/
inductive MeetingEvent where
  | userJoined (userId : String)
  | iceCandidate (sender : String) (candidate : Candidate)
  | offer (sender : String) (offer : SessionDescription)
  | answer (sender : String) (answer : SessionDescription)
  | userLeft (userId : String)
  | existingParticipants (participants : List String)
  deriving DecidableEq, Repr

/-- The listeners the socket runs for a meeting event, in the order they were
registered: both listeners of `meeting-ice-candidate` run for a candidate, and
the listener of `meeting-user-joined` does nothing. -/
def onMeetingEvent (b : Browser) (e : MeetingEvent) (s : HookState) : HookState :=
  match e with
  | .userJoined _ => s
  | .iceCandidate sender candidate =>
    onMeetingIceCandidateDirect sender candidate
      (onMeetingIceCandidateQueueing sender candidate s)
  | .offer sender offer => onMeetingOffer b sender offer s
  | .answer sender answer => onMeetingAnswer sender answer s
  | .userLeft userId => onMeetingUserLeft userId s
  | .existingParticipants participants => onMeetingExistingParticipants b participants s

/-- The meeting events run one after the other, in arrival order. -/
def onMeetingEvents (b : Browser) (es : List MeetingEvent) (s : HookState) : HookState :=
  es.foldl (fun acc e => onMeetingEvent b e acc) s

/-! ## The collision grid and the proximity tick -/

/-- The constant `BOUNDARY_SIZE`. -/
def BOUNDARY_SIZE : Int := 32

/-- The constant `INTERACTION_RANGE`. -/
def INTERACTION_RANGE : Int := 50

/-- The grid `collisions` of `utils/collisions`, a module that is not among the
sources: rows of cells, taken as a parameter by everything that reads it. -/
abbrev Collisions := List (List Int)

/-- The effect that fills `boundaries`: one rectangle per cell equal to 1, rows
first, of width `BOUNDARY_SIZE - 5` and height `BOUNDARY_SIZE - 10`. -/
def generateBoundaries (collisions : Collisions) : List Boundary :=
  collisions.enum.flatMap (fun (ir : Nat × List Int) =>
    ir.2.enum.filterMap (fun (jc : Nat × Int) =>
      if jc.2 = 1 then
        some
          { x := (jc.1 : Int) * BOUNDARY_SIZE
            y := (ir.1 : Int) * BOUNDARY_SIZE
            width := BOUNDARY_SIZE - 5
            height := BOUNDARY_SIZE - 10 }
      else none))

/-- The state after the effect that fills `boundaries` ran. -/
def initBoundaries (collisions : Collisions) (s : HookState) : HookState :=
  { s with boundaries := generateBoundaries collisions }

/-- The callback `checkCollision`. -/
def checkCollision (s : HookState) (x y : Int) : Bool :=
  s.boundaries.any (fun boundary =>
    decide (x < boundary.x + boundary.width) && decide (x + 30 > boundary.x) &&
      decide (y < boundary.y + boundary.height) && decide (y + 30 > boundary.y))

/-- The read `collisions[gridY]?.[gridX]`: `undefined` (`none`) for a row or a
column that is not an index of the array. -/
def cellAt (collisions : Collisions) (gridY gridX : Int) : Option Int :=
  if gridY < 0 then none
  else
    match collisions.get? gridY.toNat with
    | none => none
    | some row => if gridX < 0 then none else row.get? gridX.toNat

/-- The callback `checkArea2`: `Math.floor` of the quotients, then the cell is
compared with 2. -/
def checkArea2 (collisions : Collisions) (x y : Int) : Bool :=
  let gridX := Int.fdiv x BOUNDARY_SIZE
  let gridY := Int.fdiv y BOUNDARY_SIZE
  cellAt collisions gridY gridX == some 2

/-- The test `Math.sqrt(dx * dx + dy * dy) <= INTERACTION_RANGE` of the tick: on
integers the square root is at most 50 exactly when the sum of squares is at
most 2500. -/
def isNearby (player other : Position) : Bool :=
  let dx := player.x - other.x
  let dy := player.y - other.y
  decide (dx * dx + dy * dy ≤ INTERACTION_RANGE * INTERACTION_RANGE)

/-- What a tick does besides changing the state: the two callbacks it may call
and, per peer id, the branch that logs `is nearby!` or `left the area`. -/
inductive Fired where
  | initializeMeetingRoomCall
  | cleanupMeetingRoom
  | nearby (id : String)
  | leftArea (id : String)
  deriving DecidableEq, Repr

/-- The `forEach` of `checkNearbyPlayers` over the entries of `otherPlayers`
still to be visited, on the record `playerProximityState.current`: the branches
taken and the record after the loop. -/
def proximityLoop (player : Position) (entries : List (String × Sprite))
    (record : Dict Bool) : List Fired × Dict Bool :=
  match entries with
  | [] => ([], record)
  | (id, otherPlayer) :: rest =>
    let near := isNearby player otherPlayer.position
    let wasNearby := truthy (record.get id)
    let fired : List Fired :=
      if !wasNearby && near then [Fired.nearby id]
      else if wasNearby && !near then [Fired.leftArea id]
      else []
    let r := proximityLoop player rest (record.set id near)
    (fired ++ r.1, r.2)

/-- The callback `checkNearbyPlayers`, one tick: what it fired and the state it
leaves. -/
def checkNearbyPlayers (b : Browser) (collisions : Collisions) (s : HookState) :
    List Fired × HookState :=
  match s.player with
  | none => ([], s)
  | some player =>
    let isNowInArea2 := checkArea2 collisions player.position.x player.position.y
    let zone : List Fired × HookState :=
      if isNowInArea2 && !s.isInArea2 then
        ([Fired.initializeMeetingRoomCall],
          initializeMeetingRoomCall b { s with isInArea2 := true })
      else if !isNowInArea2 && s.isInArea2 then
        ([Fired.cleanupMeetingRoom], cleanupMeetingRoom { s with isInArea2 := false })
      else ([], s)
    let r := proximityLoop player.position zone.2.otherPlayers zone.2.playerProximityState
    (zone.1 ++ r.1, { zone.2 with playerProximityState := r.2 })

/-- What happens to the hook between two renders: a tick, a move of the local
player (its sprite gets a new position), a player event, a meeting event, or
the settling of the oldest pending `getUserMedia` request. -/
inductive GameStep where
  | tick
  | movePlayer (position : Position)
  | playerEvent (e : PlayerEvent)
  | meetingEvent (e : MeetingEvent)
  | userMedia
  deriving DecidableEq, Repr

/-- One step: what it fired (nothing unless it is a tick) and the state after. -/
def onStep (b : Browser) (collisions : Collisions) (step : GameStep) (s : HookState) :
    List Fired × HookState :=
  match step with
  | .tick => checkNearbyPlayers b collisions s
  | .movePlayer position =>
    ([], { s with player := s.player.map (fun sprite => { sprite with position := position }) })
  | .playerEvent e => ([], onPlayerEvent e s)
  | .meetingEvent e => ([], onMeetingEvent b e s)
  | .userMedia => ([], onUserMedia s)

/-- The steps run one after the other: everything fired, in order, and the final
state. -/
def onSteps (b : Browser) (collisions : Collisions) (steps : List GameStep) (s : HookState) :
    List Fired × HookState :=
  match steps with
  | [] => ([], s)
  | step :: rest =>
    let r := onStep b collisions step s
    let r' := onSteps b collisions rest r.2
    (r.1 ++ r'.1, r'.2)

/-! ## Vocabulary of the statements -/

/-- The identity, name and appearance of a sprite: `id`, `name`,
`characterIndex`, `image`. -/
def Sprite.identity (sp : Sprite) : Option String × String × Int × Option Image :=
  (sp.id, sp.name, sp.characterIndex, sp.image)

/-- Whether a player event ends the life of the entry of `k`: a snapshot
replaces the whole directory, a disconnection of `k` removes the entry. -/
def replaces (k : String) (e : PlayerEvent) : Bool :=
  match e with
  | .currentPlayers _ => true
  | .playerDisconnected playerId => playerId == k
  | _ => false

/-- Whether what was fired is one of the two zone callbacks. -/
def Fired.isZone (f : Fired) : Bool :=
  match f with
  | .initializeMeetingRoomCall => true
  | .cleanupMeetingRoom => true
  | _ => false

/-- The zone callbacks among what was fired. -/
def zoneFired (fired : List Fired) : List Fired := fired.filter Fired.isZone

/-- The zone callback a tick calls, given the membership recorded before it
(`was`) and the membership of the position now. -/
def zoneEdge (was now : Bool) : List Fired :=
  if now && !was then [Fired.initializeMeetingRoomCall]
  else if !now && was then [Fired.cleanupMeetingRoom]
  else []

/-- The zone callbacks along a sampled zone membership, from the membership
recorded before the first sample. -/
def zoneEdges (was : Bool) (samples : List Bool) : List Fired :=
  match samples with
  | [] => []
  | now :: rest => zoneEdge was now ++ zoneEdges now rest

/-- Whether the zone callbacks alternate, an entry being expected first when
`expectEntry` holds. -/
def alternates (expectEntry : Bool) (fired : List Fired) : Bool :=
  match fired with
  | [] => true
  | .initializeMeetingRoomCall :: rest => expectEntry && alternates false rest
  | .cleanupMeetingRoom :: rest => !expectEntry && alternates true rest
  | _ :: _ => false

/-- The steps that feed positions tick by tick. -/
def feed (positions : List Position) : List GameStep :=
  positions.flatMap (fun p => [GameStep.movePlayer p, GameStep.tick])

/-- Whether `(gridY, gridX)` is a cell of the grid: a row of the grid and a
column of that row. -/
def inGrid (collisions : Collisions) (gridY gridX : Int) : Bool :=
  decide (0 ≤ gridY) && decide (gridY < collisions.length) && decide (0 ≤ gridX) &&
    decide (gridX < ((collisions.get? gridY.toNat).getD []).length)

/-- What the tick reads and writes besides the meeting room. -/
def gameView (s : HookState) : Option Sprite × Dict Sprite × Dict Bool × Bool :=
  (s.player, s.otherPlayers, s.playerProximityState, s.isInArea2)

/-- Whether what was fired is a proximity branch taken for the peer `id`. -/
def Fired.isFor (id : String) (f : Fired) : Bool :=
  match f with
  | .nearby k => k == id
  | .leftArea k => k == id
  | _ => false

/-- The proximity branches taken for the peer `id` among what was fired. -/
def firedFor (id : String) (fired : List Fired) : List Fired := fired.filter (Fired.isFor id)

/-- The proximity branch a tick takes for `id`, given the record before it
(`was`) and whether the peer is in range now. -/
def peerEdge (id : String) (was now : Bool) : List Fired :=
  if !was && now then [Fired.nearby id]
  else if was && !now then [Fired.leftArea id]
  else []

/-- The proximity branches along a sampled in-range signal, from the record
before the first sample. -/
def peerEdges (id : String) (was : Bool) (samples : List Bool) : List Fired :=
  match samples with
  | [] => []
  | now :: rest => peerEdge id was now ++ peerEdges id now rest

/-- Whether a step ends the life of the directory entry of `id`. -/
def GameStep.replaces (id : String) (step : GameStep) : Bool :=
  match step with
  | .playerEvent e => UseGame.replaces id e
  | _ => false

/-- The in-range signal of the peer `id` sampled at the ticks of a run: one
sample per tick at which the local player and the peer both exist. -/
def nearSamples (b : Browser) (collisions : Collisions) (id : String) (steps : List GameStep)
    (s : HookState) : List Bool :=
  match steps with
  | [] => []
  | step :: rest =>
    let tail := nearSamples b collisions id rest (onStep b collisions step s).2
    match step, s.player, s.otherPlayers.get id with
    | .tick, some player, some other => isNearby player.position other.position :: tail
    | _, _, _ => tail

/-- Whether the proximity branches of `id` alternate, `nearby` being expected
first when `expectNearby` holds. -/
def alternatesFor (id : String) (expectNearby : Bool) (fired : List Fired) : Bool :=
  match fired with
  | [] => true
  | .nearby k :: rest => (k == id) && expectNearby && alternatesFor id false rest
  | .leftArea k :: rest => (k == id) && !expectNearby && alternatesFor id true rest
  | _ :: _ => false

/-! ## Sample values -/

/-- A browser that grants capture and constructs every connection. -/
def demoBrowser : Browser :=
  { getUserMedia := some { id := "local", tracks := ["audio", "video"] }
    constructs := fun _ => true
    createOffer := fun _ => "offer-sdp"
    createAnswer := fun _ => "answer-sdp" }

/-- The hook once the images and the ICE configuration are loaded and the socket
is connected as `"me"`. -/
def demoMounted : HookState :=
  { HookState.initial with
    characterImages := ["/images/4.png", "/images/1.png", "/images/2.png", "/images/3.png"]
    iceConfig := some fallbackIceConfig
    socketId := some "me" }

/-- The hook after the local player entered the meeting zone and capture was
granted. -/
def demoEntered : HookState :=
  onUserMedia (initializeMeetingRoomCall demoBrowser demoMounted)

/-- The listeners registered by that entry. -/
def demoListeners : MeetingListeners :=
  { stream := { id := "local", tracks := ["audio", "video"] }
    iceConfig := fallbackIceConfig
    isInitiator := false
    candidateQueue := []
    existingParticipants := true }

/-- A remote offer. -/
def demoOffer : SessionDescription := { type := .offer, sdp := "remote-offer" }

/-- A remote answer. -/
def demoAnswer : SessionDescription := { type := .answer, sdp := "remote-answer" }

/-- A `newPlayer` payload. -/
def demoInfo : PlayerInfo :=
  { id := "p1"
    position := { x := 40, y := 10 }
    name := some "Ann"
    characterIndex := some 6
    direction := some "left"
    moving := some true }

/-- A `playerMoved` payload for the same player, with other name and appearance. -/
def demoMove : PlayerInfo :=
  { id := "p1"
    position := { x := 200, y := 10 }
    name := some "Bob"
    characterIndex := some 1
    direction := none
    moving := none }

/-- The hook after `"p1"` joined. -/
def demoJoined : HookState := handleNewPlayer demoInfo demoMounted

/-- The hook after the bootstrap list `["X"]`: an offer was sent to `"X"`. -/
def demoOffered : HookState :=
  onMeetingEvent demoBrowser (.existingParticipants ["X"]) demoEntered

/-- The hook after the bootstrap list `["A", "B"]`. -/
def demoMesh : HookState :=
  onMeetingEvent demoBrowser (.existingParticipants ["A", "B"]) demoEntered

/-- The listeners of that entry once the bootstrap list was handled. -/
def demoInitiator : MeetingListeners :=
  { demoListeners with isInitiator := true, existingParticipants := false }

/-- The hook after `"X"` answered the offer. -/
def demoConnected : HookState :=
  onMeetingEvent demoBrowser (.answer "X" demoAnswer) demoOffered

/-- The grid of the samples: a blocking cell, a free cell, and the zone cell in
the second row. -/
def demoGrid : Collisions := [[1, 0], [0, 2]]

/-- The sprite of the local player, at `(10, 10)`. -/
def demoPlayer : Sprite :=
  Sprite.new { x := 10, y := 10 } (some "/images/4.png") 4 (some "/images/4.png") (some "Me")
    none 3 "down" false 0

/-- The hook with the local player on the map and nobody else. -/
def demoGame : HookState := { demoMounted with player := some demoPlayer }

/-- The `newPlayer` payload of the peer `"P"` at `(40, 10)`, at distance 30. -/
def demoPeer : PlayerInfo :=
  { id := "P"
    position := { x := 40, y := 10 }
    name := some "Pat"
    characterIndex := none
    direction := none
    moving := none }

/-- The `playerMoved` payload that takes `"P"` to `(200, 10)`, at distance 190. -/
def demoPeerAway : PlayerInfo := { demoPeer with position := { x := 200, y := 10 } }

/-- The hook with the local player and the peer `"P"` on the map. -/
def demoWithPeer : HookState := handleNewPlayer demoPeer demoGame

/-- The hook after the snapshot that lists `"p1"` alone. -/
def demoSnapshot : HookState := handleCurrentPlayers [("p1", demoInfo)] demoMounted

/-- The hook after an offer was sent to `"X"` and a candidate of `"X"` was buffered. -/
def demoBuffered : HookState :=
  onMeetingEvent demoBrowser (.iceCandidate "X" "c") demoOffered

/-- A browser that refuses capture. -/
def demoRefusing : Browser := { demoBrowser with getUserMedia := none }

/-! ## Dictionaries -/

namespace Dict

theorem get_set_self {α : Type} (d : Dict α) (k : String) (v : α) :
    (d.set k v).get k = some v := by
  induction d with
  | nil => simp [set, get]
  | cons e rest ih =>
    obtain ⟨k', v'⟩ := e
    by_cases h : k' = k
    · simp [set, get, h]
    · simp [set, get, h, ih]

theorem get_set_ne {α : Type} (d : Dict α) (k k' : String) (v : α) (h : k' ≠ k) :
    (d.set k v).get k' = d.get k' := by
  induction d with
  | nil => simp [set, get, Ne.symm h]
  | cons e rest ih =>
    obtain ⟨k₀, v₀⟩ := e
    by_cases h₀ : k₀ = k
    · subst h₀
      simp [set, get, Ne.symm h]
    · by_cases h₁ : k₀ = k'
      · subst h₁
        simp [set, get, h₀]
      · simp [set, get, h₀, h₁, ih]

theorem get_delete_self {α : Type} (d : Dict α) (k : String) :
    (d.delete k).get k = none := by
  induction d with
  | nil => simp [delete, get]
  | cons e rest ih =>
    obtain ⟨k₀, v₀⟩ := e
    by_cases h₀ : k₀ = k
    · simp [delete, h₀, ih]
    · simp [delete, get, h₀, ih]

theorem get_delete_ne {α : Type} (d : Dict α) (k k' : String) (h : k' ≠ k) :
    (d.delete k).get k' = d.get k' := by
  induction d with
  | nil => simp [delete, get]
  | cons e rest ih =>
    obtain ⟨k₀, v₀⟩ := e
    by_cases h₀ : k₀ = k
    · subst h₀
      simp [delete, get, Ne.symm h, ih]
    · by_cases h₁ : k₀ = k'
      · subst h₁
        simp [delete, get, h₀]
      · simp [delete, get, h₀, h₁, ih]

theorem delete_of_get_none {α : Type} (d : Dict α) (k : String) (h : d.get k = none) :
    d.delete k = d := by
  induction d with
  | nil => simp [delete]
  | cons e rest ih =>
    obtain ⟨k₀, v₀⟩ := e
    by_cases h₀ : k₀ = k
    · simp [get, h₀] at h
    · simp [get, h₀] at h
      simp [delete, h₀, ih h]

theorem delete_delete {α : Type} (d : Dict α) (k : String) :
    (d.delete k).delete k = d.delete k :=
  delete_of_get_none _ _ (get_delete_self d k)

theorem set_of_get {α : Type} (d : Dict α) (k : String) (v : α) (h : d.get k = some v) :
    d.set k v = d := by
  induction d with
  | nil => simp [get] at h
  | cons e rest ih =>
    obtain ⟨k₀, v₀⟩ := e
    by_cases h₀ : k₀ = k
    · simp [get, h₀] at h
      simp [set, h₀, h]
    · simp [get, h₀] at h
      simp [set, h₀, ih h]

theorem set_set {α : Type} (d : Dict α) (k : String) (v w : α) :
    (d.set k v).set k w = d.set k w := by
  induction d with
  | nil => simp [set]
  | cons e rest ih =>
    obtain ⟨k₀, v₀⟩ := e
    by_cases h₀ : k₀ = k
    · simp [set, h₀]
    · simp [set, h₀, ih]

end Dict

/-! ## The peer directory -/

theorem onPlayerEvents_cons (e : PlayerEvent) (es : List PlayerEvent) (s : HookState) :
    onPlayerEvents (e :: es) s = onPlayerEvents es (onPlayerEvent e s) := rfl

/-- One event that does not end the life of the entry of `k` keeps the entry and
its identity fields. -/
theorem onPlayerEvent_identity (e : PlayerEvent) (s : HookState) (k : String) (sp : Sprite)
    (h0 : s.otherPlayers.get k = some sp) (hrep : replaces k e = false) :
    ∃ sp', (onPlayerEvent e s).otherPlayers.get k = some sp' ∧ sp'.identity = sp.identity := by
  cases e with
  | currentPlayers players => simp [replaces] at hrep
  | newPlayer info =>
    simp only [onPlayerEvent, handleNewPlayer]
    split
    · exact ⟨sp, h0, rfl⟩
    · by_cases hk : info.id = k
      · subst hk
        simp only [h0]
        exact ⟨sp, rfl, rfl⟩
      · cases hg : s.otherPlayers.get info.id with
        | some _ => exact ⟨sp, h0, rfl⟩
        | none =>
          refine ⟨sp, ?_, rfl⟩
          simp only
          rw [Dict.get_set_ne _ _ _ _ (Ne.symm hk)]
          exact h0
  | playerMoved info =>
    simp only [onPlayerEvent, handlePlayerMoved]
    by_cases hk : info.id = k
    · subst hk
      simp only [h0]
      exact ⟨_, Dict.get_set_self _ _ _, rfl⟩
    · cases hg : s.otherPlayers.get info.id with
      | none => exact ⟨sp, h0, rfl⟩
      | some sprite =>
        refine ⟨sp, ?_, rfl⟩
        simp only
        rw [Dict.get_set_ne _ _ _ _ (Ne.symm hk)]
        exact h0
  | playerDisconnected id =>
    have hk : k ≠ id := by
      intro h
      simp [replaces, h] at hrep
    refine ⟨sp, ?_, rfl⟩
    simp only [onPlayerEvent, handlePlayerDisconnected]
    rw [Dict.get_delete_ne _ _ _ hk]
    exact h0

/-- A sequence of events none of which ends the life of the entry of `k` keeps
the entry and its identity fields. -/
theorem onPlayerEvents_identity (es : List PlayerEvent) (s : HookState) (k : String)
    (sp : Sprite) (h0 : s.otherPlayers.get k = some sp)
    (hes : ∀ e ∈ es, replaces k e = false) :
    ∃ sp', (onPlayerEvents es s).otherPlayers.get k = some sp' ∧ sp'.identity = sp.identity := by
  induction es generalizing s sp with
  | nil => exact ⟨sp, h0, rfl⟩
  | cons e es ih =>
    obtain ⟨sp1, h1, hid1⟩ :=
      onPlayerEvent_identity e s k sp h0 (hes e (List.mem_cons_self _ _))
    obtain ⟨sp2, h2, hid2⟩ :=
      ih (onPlayerEvent e s) sp1 h1 (fun e' he' => hes e' (List.mem_cons_of_mem _ he'))
    exact ⟨sp2, by rw [onPlayerEvents_cons]; exact h2, hid2.trans hid1⟩

/-- The directory after a disconnection is the same whether the disconnection
is handled once or twice. -/
theorem handlePlayerDisconnected_directory_idempotent (playerId : String) (s : HookState) :
    (handlePlayerDisconnected playerId (handlePlayerDisconnected playerId s)).otherPlayers =
      (handlePlayerDisconnected playerId s).otherPlayers := by
  simp [handlePlayerDisconnected, Dict.delete_delete]

/-- C8. Every entry of the peer directory keeps the id, name, characterIndex and
image it was created with: `handleNewPlayer` for an absent id (images loaded)
creates the entry with the identity fields of the payload; over every sequence
of player events that holds no snapshot and no disconnection of `k`, the entry
of `k` stays present with the same identity fields; `handlePlayerMoved` changes
only `position`, `lastDirection` and `moving` of the addressed entry and no
other entry; `handleNewPlayer` for an id already present leaves the directory
unchanged. -/
theorem directory_identity_fixed_at_creation :
    (∀ (playerInfo : PlayerInfo) (s : HookState),
        s.characterImages.length ≠ 0 → s.otherPlayers.get playerInfo.id = none →
        ∃ sp, (handleNewPlayer playerInfo s).otherPlayers.get playerInfo.id = some sp ∧
          sp.identity =
            (some playerInfo.id, strOr playerInfo.name "",
              charIndexOf playerInfo.characterIndex,
              imageAt s.characterImages (charIndexOf playerInfo.characterIndex))) ∧
    (∀ (es : List PlayerEvent) (s : HookState) (k : String) (sp : Sprite),
        s.otherPlayers.get k = some sp → (∀ e ∈ es, replaces k e = false) →
        ∃ sp', (onPlayerEvents es s).otherPlayers.get k = some sp' ∧
          sp'.identity = sp.identity) ∧
    (∀ (playerInfo : PlayerInfo) (s : HookState) (sp : Sprite),
        s.otherPlayers.get playerInfo.id = some sp →
        (handlePlayerMoved playerInfo s).otherPlayers.get playerInfo.id =
            some { sp with
                   position := playerInfo.position
                   lastDirection := strOr playerInfo.direction sp.lastDirection
                   moving := truthy playerInfo.moving } ∧
          ∀ k, k ≠ playerInfo.id →
            (handlePlayerMoved playerInfo s).otherPlayers.get k = s.otherPlayers.get k) ∧
    (∀ (playerInfo : PlayerInfo) (s : HookState) (sp : Sprite),
        s.otherPlayers.get playerInfo.id = some sp →
        (handleNewPlayer playerInfo s).otherPlayers = s.otherPlayers) := by
  refine ⟨?_, onPlayerEvents_identity, ?_, ?_⟩
  · intro info s himg habs
    refine ⟨spriteFor s.characterImages info.id info, ?_, ?_⟩
    · simp only [handleNewPlayer, if_neg himg, habs]
      exact Dict.get_set_self _ _ _
    · cases hn : info.name with
      | none => simp [Sprite.identity, spriteFor, Sprite.new, strOr, hn]
      | some n =>
        by_cases he : n = ""
        · simp [Sprite.identity, spriteFor, Sprite.new, strOr, hn, he]
        · simp [Sprite.identity, spriteFor, Sprite.new, strOr, hn, he]
  · intro info s sp h
    constructor
    · simp only [handlePlayerMoved, h]
      exact Dict.get_set_self _ _ _
    · intro k hk
      simp only [handlePlayerMoved, h]
      exact Dict.get_set_ne _ _ _ _ hk
  · intro info s sp h
    simp only [handleNewPlayer]
    split
    · rfl
    · simp only [h]


/-- C8 at a sample: `"p1"` joins, then moves, joins again under another name and
appearance, and another player disconnects. -/
theorem directory_identity_fixed_at_creation_witness :
    demoJoined.otherPlayers.get "p1" = some (spriteFor demoMounted.characterImages "p1" demoInfo) ∧
    (∀ e ∈ [PlayerEvent.playerMoved demoMove, PlayerEvent.newPlayer demoMove,
        PlayerEvent.playerDisconnected "p2"], replaces "p1" e = false) ∧
    ∃ sp',
      (onPlayerEvents
          [PlayerEvent.playerMoved demoMove, PlayerEvent.newPlayer demoMove,
            PlayerEvent.playerDisconnected "p2"] demoJoined).otherPlayers.get "p1" = some sp' ∧
        sp'.identity = (spriteFor demoMounted.characterImages "p1" demoInfo).identity :=
  ⟨by decide, by decide,
    directory_identity_fixed_at_creation.2.1 _ demoJoined "p1" _ (by decide) (by decide)⟩

/-- C9. At the failing input, a disconnection of an id that is absent from the
directory: `handlePlayerDisconnected` leaves the directory as it was but lowers
`playerCount`, from 1 to 0 and on a second delivery to -1, so the state is not
the state before, and handling the event twice is not handling it once. -/
theorem handlePlayerDisconnected_absent_changes_playerCount :
    HookState.initial.otherPlayers.get "ghost" = none ∧
    HookState.initial.playerCount = 1 ∧
    (handlePlayerDisconnected "ghost" HookState.initial).playerCount = 0 ∧
    (handlePlayerDisconnected "ghost"
        (handlePlayerDisconnected "ghost" HookState.initial)).playerCount = -1 ∧
    handlePlayerDisconnected "ghost" HookState.initial ≠ HookState.initial ∧
    handlePlayerDisconnected "ghost" (handlePlayerDisconnected "ghost" HookState.initial) ≠
      handlePlayerDisconnected "ghost" HookState.initial := by
  refine ⟨by decide, by decide, by decide, by decide, ?_, ?_⟩
  · intro h
    exact absurd (congrArg HookState.playerCount h) (by decide)
  · intro h
    exact absurd (congrArg HookState.playerCount h) (by decide)

/-- C10, as stated, fails: `handlePlayerMoved` for an id that is absent from the
directory creates no entry. -/
theorem handlePlayerMoved_absent_creates_no_entry :
    demoMounted.otherPlayers.get demoMove.id = none ∧
    (handlePlayerMoved demoMove demoMounted).otherPlayers.get demoMove.id = none ∧
    (handlePlayerMoved demoMove demoMounted).otherPlayers = [] := by
  decide

/-- C10, amended. `handlePlayerMoved` for an id that is absent from the
directory leaves the whole state unchanged; for an id that is present it sets
`position`, `lastDirection` (kept when the event carries no direction) and
`moving` of that entry and changes no other field of it, no other entry and not
`playerCount`. -/
theorem handlePlayerMoved_merges_movement_only (playerInfo : PlayerInfo) (s : HookState) :
    (s.otherPlayers.get playerInfo.id = none → handlePlayerMoved playerInfo s = s) ∧
    (∀ sp, s.otherPlayers.get playerInfo.id = some sp →
      (handlePlayerMoved playerInfo s).otherPlayers.get playerInfo.id =
          some { sp with
                 position := playerInfo.position
                 lastDirection := strOr playerInfo.direction sp.lastDirection
                 moving := truthy playerInfo.moving } ∧
        (∀ k, k ≠ playerInfo.id →
          (handlePlayerMoved playerInfo s).otherPlayers.get k = s.otherPlayers.get k) ∧
        (handlePlayerMoved playerInfo s).playerCount = s.playerCount) := by
  constructor
  · intro h
    simp [handlePlayerMoved, h]
  · intro sp h
    refine ⟨?_, ?_, rfl⟩
    · simp only [handlePlayerMoved, h]
      exact Dict.get_set_self _ _ _
    · intro k hk
      simp only [handlePlayerMoved, h]
      exact Dict.get_set_ne _ _ _ _ hk

/-- C10, amended, at a sample: a move of the joined player `"p1"`. -/
theorem handlePlayerMoved_merges_movement_only_witness :
    demoJoined.otherPlayers.get demoMove.id =
        some (spriteFor demoMounted.characterImages "p1" demoInfo) ∧
    (handlePlayerMoved demoMove demoJoined).otherPlayers.get demoMove.id =
      some { spriteFor demoMounted.characterImages "p1" demoInfo with
             position := { x := 200, y := 10 }
             lastDirection := "left"
             moving := false } :=
  ⟨by decide,
    ((handlePlayerMoved_merges_movement_only demoMove demoJoined).2 _ (by decide)).1⟩

/-! ## The meeting room -/

theorem invoke_eq {k : String} {s : HookState} {pc : PeerConnection} (c : PcCall)
    (h : s.meetingPeerConnections.get k = some pc) :
    invoke k c s =
      { s with
        meetingPeerConnections := s.meetingPeerConnections.set k (pc.after c)
        pcCalls := s.pcCalls ++ [(pc.handle, c)] } := by
  simp [invoke, h]

theorem invoke_addIceCandidate {k : String} {s : HookState} {pc : PeerConnection}
    (c : Candidate) (h : s.meetingPeerConnections.get k = some pc) :
    invoke k (.addIceCandidate c) s =
      { s with pcCalls := s.pcCalls ++ [(pc.handle, .addIceCandidate c)] } := by
  rw [invoke_eq _ h]
  simp [PeerConnection.after, Dict.set_of_get _ _ _ h]

theorem flushCandidates_eq {k : String} {pc : PeerConnection} (queued : List Candidate)
    (s : HookState) (h : s.meetingPeerConnections.get k = some pc) :
    flushCandidates k queued s =
      { s with
        pcCalls := s.pcCalls ++ queued.map (fun c => (pc.handle, PcCall.addIceCandidate c)) } := by
  induction queued generalizing s with
  | nil => simp [flushCandidates]
  | cons c rest ih =>
    have h1 : (invoke k (.addIceCandidate c) s).meetingPeerConnections.get k = some pc := by
      rw [invoke_addIceCandidate c h]; exact h
    have := ih (invoke k (.addIceCandidate c) s) h1
    simp only [flushCandidates, List.foldl_cons] at this ⊢
    rw [this, invoke_addIceCandidate c h]
    simp

theorem createPeerConnection_existing (b : Browser) (stream : MediaStream)
    (iceConfig : IceConfig) {k : String} {s : HookState} {pc : PeerConnection}
    (h : s.meetingPeerConnections.get k = some pc) :
    createPeerConnection b stream iceConfig k s = .ok s := by
  simp [createPeerConnection, h]

theorem createPeerConnection_new (b : Browser) (stream : MediaStream)
    (iceConfig : IceConfig) {k : String} {s : HookState}
    (h : s.meetingPeerConnections.get k = none)
    (hc : b.constructs (rtcConfigOf iceConfig) = true) :
    createPeerConnection b stream iceConfig k s =
      .ok
        { s with
          constructed := s.constructed + 1
          meetingPeerConnections :=
            s.meetingPeerConnections.set k
              { handle := s.constructed, remoteDescription := none, signalingState := .stable }
          pcCalls :=
            s.pcCalls ++ stream.tracks.map (fun t => (s.constructed, PcCall.addTrack t)) } := by
  simp [createPeerConnection, h, hc]

/-- When the constructor does not throw, `createPeerConnection` returns, the
connection is stored under the participant, and nothing but the connection map,
the handle counter and the call log changes; the log only grows. -/
theorem createPeerConnection_ok (b : Browser) (stream : MediaStream) (iceConfig : IceConfig)
    (k : String) (s : HookState) (hc : b.constructs (rtcConfigOf iceConfig) = true) :
    ∃ s1 pc pre, createPeerConnection b stream iceConfig k s = .ok s1 ∧
      s1.meetingPeerConnections.get k = some pc ∧
      s1.pcCalls = s.pcCalls ++ pre ∧
      s1.listeners = s.listeners ∧ s1.emitted = s.emitted ∧ s1.socketId = s.socketId ∧
      (∀ k', k' ≠ k → s1.meetingPeerConnections.get k' = s.meetingPeerConnections.get k') := by
  cases h : s.meetingPeerConnections.get k with
  | some pc =>
    exact ⟨s, pc, [], createPeerConnection_existing b stream iceConfig h, h, by simp, rfl, rfl,
      rfl, fun _ _ => rfl⟩
  | none =>
    refine ⟨_, { handle := s.constructed, remoteDescription := none, signalingState := .stable },
      _, createPeerConnection_new b stream iceConfig h hc, ?_, rfl, rfl, rfl, rfl, ?_⟩
    · exact Dict.get_set_self _ _ _
    · intro k' hk'
      exact Dict.get_set_ne _ _ _ _ hk'

/-- The `meeting-offer` listener, once the connection is there. -/
theorem onMeetingOffer_of_created (b : Browser) (sender : String) (offer : SessionDescription)
    (s s1 : HookState) (l : MeetingListeners) (pc : PeerConnection)
    (hl : s.listeners = some l)
    (h1 : createPeerConnection b l.stream l.iceConfig sender s = .ok s1)
    (hl1 : s1.listeners = some l)
    (hpc : s1.meetingPeerConnections.get sender = some pc) :
    (onMeetingOffer b sender offer s).pcCalls =
        s1.pcCalls ++ (pc.handle, PcCall.setRemoteDescription offer) ::
          (((l.candidateQueue.get sender).getD []).map
              (fun c => (pc.handle, PcCall.addIceCandidate c)) ++
            [(pc.handle, PcCall.createAnswer),
              (pc.handle,
                PcCall.setLocalDescription { type := .answer, sdp := b.createAnswer pc.handle })]) ∧
    (onMeetingOffer b sender offer s).meetingPeerConnections.get sender =
        some { handle := pc.handle, remoteDescription := some offer, signalingState := .stable } ∧
    (onMeetingOffer b sender offer s).listeners =
        some
          (match l.candidateQueue.get sender with
          | some _ => { l with candidateQueue := l.candidateQueue.set sender [] }
          | none => l) ∧
    (onMeetingOffer b sender offer s).emitted =
        s1.emitted ++
          [Emit.meetingAnswer sender { type := .answer, sdp := b.createAnswer pc.handle }] := by
  have h2 : (invoke sender (.setRemoteDescription offer) s1).meetingPeerConnections.get sender =
      some (pc.after (.setRemoteDescription offer)) := by
    rw [invoke_eq _ hpc]; exact Dict.get_set_self _ _ _
  cases hq : l.candidateQueue.get sender with
  | none =>
    simp [onMeetingOffer, hl, h1, hq, invoke, hpc, Dict.get_set_self, handleOf, Dict.set_set,
      PeerConnection.after, emit, hl1]
  | some queued =>
    simp [onMeetingOffer, hl, h1, hq, flushCandidates_eq queued _ h2]
    simp [invoke, hpc, Dict.get_set_self, handleOf, Dict.set_set, PeerConnection.after, emit]


theorem onMeetingEvents_cons (b : Browser) (e : MeetingEvent) (es : List MeetingEvent)
    (s : HookState) :
    onMeetingEvents b (e :: es) s = onMeetingEvents b es (onMeetingEvent b e s) := rfl

/-- The second listener passes the candidate to `addIceCandidate` whenever the
sender has a session. -/
theorem onMeetingIceCandidateDirect_of_session (s : HookState) (l : MeetingListeners)
    (pc : PeerConnection) (sender : String) (c : Candidate) (hl : s.listeners = some l)
    (hpc : s.meetingPeerConnections.get sender = some pc) :
    onMeetingIceCandidateDirect sender c s =
      { s with pcCalls := s.pcCalls ++ [(pc.handle, PcCall.addIceCandidate c)] } := by
  simp only [onMeetingIceCandidateDirect, hl, hpc]
  rw [invoke_addIceCandidate c hpc]
  simp [hl]

/-- The first listener passes the candidate to `addIceCandidate` when the session
of the sender has a remote description. -/
theorem onMeetingIceCandidateQueueing_described (s : HookState) (l : MeetingListeners)
    (pc : PeerConnection) (d : SessionDescription) (sender : String) (c : Candidate)
    (hl : s.listeners = some l) (hpc : s.meetingPeerConnections.get sender = some pc)
    (hd : pc.remoteDescription = some d) :
    onMeetingIceCandidateQueueing sender c s =
      { s with pcCalls := s.pcCalls ++ [(pc.handle, PcCall.addIceCandidate c)] } := by
  simp only [onMeetingIceCandidateQueueing, hl, hpc, hd]
  rw [invoke_addIceCandidate c hpc]
  simp [hl]

/-- A candidate for a participant whose connection has a remote description is
passed to `addIceCandidate` by both listeners, and nothing else changes. -/
theorem onMeetingEvent_iceCandidate_described (b : Browser) (s : HookState)
    (l : MeetingListeners) (pc : PeerConnection) (d : SessionDescription) (sender : String)
    (c : Candidate) (hl : s.listeners = some l)
    (hpc : s.meetingPeerConnections.get sender = some pc)
    (hd : pc.remoteDescription = some d) :
    onMeetingEvent b (.iceCandidate sender c) s =
      { s with
        pcCalls :=
          s.pcCalls ++
            [(pc.handle, PcCall.addIceCandidate c), (pc.handle, PcCall.addIceCandidate c)] } := by
  have h1 := onMeetingIceCandidateQueueing_described s l pc d sender c hl hpc hd
  have h2 :=
    onMeetingIceCandidateDirect_of_session
      { s with pcCalls := s.pcCalls ++ [(pc.handle, PcCall.addIceCandidate c)] } l pc sender c
      hl hpc
  simp only [onMeetingEvent, h1, h2]
  simp

theorem onMeetingEvents_iceCandidates_described (b : Browser) (sender : String)
    (cs : List Candidate) (s : HookState) (l : MeetingListeners) (pc : PeerConnection)
    (d : SessionDescription) (hl : s.listeners = some l)
    (hpc : s.meetingPeerConnections.get sender = some pc)
    (hd : pc.remoteDescription = some d) :
    onMeetingEvents b (cs.map (MeetingEvent.iceCandidate sender)) s =
      { s with
        pcCalls :=
          s.pcCalls ++
            cs.flatMap (fun c =>
              [(pc.handle, PcCall.addIceCandidate c), (pc.handle, PcCall.addIceCandidate c)]) } := by
  induction cs generalizing s with
  | nil => simp [onMeetingEvents]
  | cons c rest ih =>
    rw [List.map_cons, onMeetingEvents_cons,
      onMeetingEvent_iceCandidate_described b s l pc d sender c hl hpc hd]
    rw [ih _ (by exact hl) (by exact hpc)]
    simp

/-- C1. With the meeting listeners registered and the connection constructor
not throwing: after `meeting-offer` from `sender` is handled, the connection of
`sender` has the offer as remote description and the call log holds
`setRemoteDescription(offer)` on it; the candidates `cs` that then arrive from
`sender` add to the log, after that call, exactly the `addIceCandidate` calls
for `cs` in arrival order, each candidate being passed once by each of the two
registered `meeting-ice-candidate` listeners. -/
theorem candidates_after_offer_applied_in_order (b : Browser) (s : HookState)
    (l : MeetingListeners) (sender : String) (offer : SessionDescription)
    (cs : List Candidate) (hl : s.listeners = some l)
    (hc : b.constructs (rtcConfigOf l.iceConfig) = true) :
    ∃ (pc : PeerConnection) (before after : List (Nat × PcCall)),
      (onMeetingEvent b (.offer sender offer) s).meetingPeerConnections.get sender = some pc ∧
      pc.remoteDescription = some offer ∧
      (onMeetingEvent b (.offer sender offer) s).pcCalls =
        before ++ (pc.handle, PcCall.setRemoteDescription offer) :: after ∧
      (onMeetingEvents b (.offer sender offer :: cs.map (MeetingEvent.iceCandidate sender))
          s).pcCalls =
        before ++ (pc.handle, PcCall.setRemoteDescription offer) :: after ++
          cs.flatMap (fun c =>
            [(pc.handle, PcCall.addIceCandidate c), (pc.handle, PcCall.addIceCandidate c)]) := by
  obtain ⟨s1, pc1, pre, h1, hpc1, -, hl1, -, -, -⟩ :=
    createPeerConnection_ok b l.stream l.iceConfig sender s hc
  obtain ⟨hcalls, hget, hlis, -⟩ :=
    onMeetingOffer_of_created b sender offer s s1 l pc1 hl h1 (hl1.trans hl) hpc1
  have he : onMeetingEvent b (.offer sender offer) s = onMeetingOffer b sender offer s := rfl
  rw [onMeetingEvents_cons, he]
  refine ⟨_, s1.pcCalls, _, hget, rfl, hcalls, ?_⟩
  rw [onMeetingEvents_iceCandidates_described b sender cs _ _ _ offer hlis hget rfl]
  simp only
  rw [hcalls]


/-- C1 at a sample: an offer from `"A"`, then the candidates `"c1"` and `"c2"`. -/
theorem candidates_after_offer_applied_in_order_witness :
    demoEntered.listeners = some demoListeners ∧
    demoBrowser.constructs (rtcConfigOf demoListeners.iceConfig) = true ∧
    ∃ (pc : PeerConnection) (before after : List (Nat × PcCall)),
      (onMeetingEvent demoBrowser (.offer "A" demoOffer)
          demoEntered).meetingPeerConnections.get "A" = some pc ∧
      pc.remoteDescription = some demoOffer ∧
      (onMeetingEvent demoBrowser (.offer "A" demoOffer) demoEntered).pcCalls =
        before ++ (pc.handle, PcCall.setRemoteDescription demoOffer) :: after ∧
      (onMeetingEvents demoBrowser
          (.offer "A" demoOffer :: ["c1", "c2"].map (MeetingEvent.iceCandidate "A"))
          demoEntered).pcCalls =
        before ++ (pc.handle, PcCall.setRemoteDescription demoOffer) :: after ++
          ["c1", "c2"].flatMap (fun c =>
            [(pc.handle, PcCall.addIceCandidate c), (pc.handle, PcCall.addIceCandidate c)]) :=
  ⟨by decide, rfl,
    candidates_after_offer_applied_in_order demoBrowser demoEntered demoListeners "A" demoOffer
      ["c1", "c2"] (by decide) rfl⟩

/-- C2, as stated, fails.  With the listeners registered and no session for
`"X"`, a candidate from `"X"` leaves the state as it was, so it is not buffered,
and the offer that `"X"` sends next applies no candidate: the candidate is lost.
With a session for `"X"` that has no remote description yet (an offer was sent
to `"X"`), a candidate from `"X"` is passed to `addIceCandidate` at once. -/
theorem candidate_dropped_or_applied_early :
    (demoEntered.meetingPeerConnections.get "X" = none ∧
      onMeetingEvent demoBrowser (.iceCandidate "X" "c") demoEntered = demoEntered ∧
      (onMeetingEvents demoBrowser [.iceCandidate "X" "c", .offer "X" demoOffer]
          demoEntered).pcCalls =
        [(0, .addTrack "audio"), (0, .addTrack "video"), (0, .setRemoteDescription demoOffer),
          (0, .createAnswer),
          (0, .setLocalDescription { type := .answer, sdp := "answer-sdp" })]) ∧
    (demoOffered.meetingPeerConnections.get "X" =
        some { handle := 0, remoteDescription := none, signalingState := .haveLocalOffer } ∧
      (onMeetingEvent demoBrowser (.iceCandidate "X" "c") demoOffered).pcCalls =
        demoOffered.pcCalls ++ [(0, .addIceCandidate "c")]) := by
  decide


theorem invoke_emitted (k : String) (c : PcCall) (s : HookState) :
    (invoke k c s).emitted = s.emitted := by
  unfold invoke
  split <;> rfl

theorem invoke_listeners (k : String) (c : PcCall) (s : HookState) :
    (invoke k c s).listeners = s.listeners := by
  unfold invoke
  split <;> rfl

/-- C2, amended.  With the meeting listeners registered, for a candidate `c`
received from `sender`: without a session for `sender` the candidate is ignored
(the state is unchanged, nothing is applied or buffered); with a session that
has a remote description, `c` is passed to `addIceCandidate` at once; with a
session that has no remote description, `c` is appended to the buffer of
`sender`; and when the `meeting-offer` listener then sets a remote description
for `sender`, the buffered candidates are applied right after
`setRemoteDescription`, in arrival order, and the buffer is emptied. -/
theorem candidate_applied_or_buffered (b : Browser) (s : HookState) (l : MeetingListeners)
    (sender : String) (c : Candidate) (hl : s.listeners = some l) :
    (s.meetingPeerConnections.get sender = none →
      onMeetingEvent b (.iceCandidate sender c) s = s) ∧
    (∀ pc d, s.meetingPeerConnections.get sender = some pc → pc.remoteDescription = some d →
      ∃ rest, (onMeetingEvent b (.iceCandidate sender c) s).pcCalls =
        s.pcCalls ++ (pc.handle, PcCall.addIceCandidate c) :: rest) ∧
    (∀ pc, s.meetingPeerConnections.get sender = some pc → pc.remoteDescription = none →
      (onMeetingEvent b (.iceCandidate sender c) s).listeners =
        some { l with
               candidateQueue :=
                 l.candidateQueue.set sender ((l.candidateQueue.get sender).getD [] ++ [c]) }) ∧
    (∀ offer queued, l.candidateQueue.get sender = some queued →
      b.constructs (rtcConfigOf l.iceConfig) = true →
      ∃ pc before,
        (onMeetingEvent b (.offer sender offer) s).meetingPeerConnections.get sender = some pc ∧
        pc.remoteDescription = some offer ∧
        (onMeetingEvent b (.offer sender offer) s).pcCalls =
          before ++ (pc.handle, PcCall.setRemoteDescription offer) ::
            (queued.map (fun q => (pc.handle, PcCall.addIceCandidate q)) ++
              [(pc.handle, PcCall.createAnswer),
                (pc.handle,
                  PcCall.setLocalDescription
                    { type := .answer, sdp := b.createAnswer pc.handle })]) ∧
        (onMeetingEvent b (.offer sender offer) s).listeners =
          some { l with candidateQueue := l.candidateQueue.set sender [] }) := by
  refine ⟨?_, ?_, ?_, ?_⟩
  · intro h
    simp [onMeetingEvent, onMeetingIceCandidateQueueing, onMeetingIceCandidateDirect, hl, h]
  · intro pc d hpc hd
    rw [onMeetingEvent_iceCandidate_described b s l pc d sender c hl hpc hd]
    exact ⟨[(pc.handle, PcCall.addIceCandidate c)], rfl⟩
  · intro pc hpc hd
    simp only [onMeetingEvent, onMeetingIceCandidateDirect, onMeetingIceCandidateQueueing, hl,
      hpc, hd]
    rw [invoke_listeners]
    cases hq : l.candidateQueue.get sender <;> simp
  · intro offer queued hq hc
    obtain ⟨s1, pc1, pre, h1, hpc1, -, hl1, -, -, -⟩ :=
      createPeerConnection_ok b l.stream l.iceConfig sender s hc
    obtain ⟨hcalls, hget, hlis, -⟩ :=
      onMeetingOffer_of_created b sender offer s s1 l pc1 hl h1 (hl1.trans hl) hpc1
    have he : onMeetingEvent b (.offer sender offer) s = onMeetingOffer b sender offer s := rfl
    rw [he]
    refine ⟨_, s1.pcCalls, hget, rfl, ?_, ?_⟩
    · rw [hcalls, hq]; rfl
    · rw [hlis, hq]

/-- C3.  With the meeting listeners registered, `meeting-answer` from `sender`
leaves the whole state unchanged (session map, call log, rejections) when
`sender` has no session and when the session of `sender` is not in
`"have-local-offer"`; in `"have-local-offer"` it calls
`setRemoteDescription(answer)` on that session and changes nothing else; so the
call is made if and only if the session exists and is in `"have-local-offer"`. -/
theorem answer_applied_only_in_have_local_offer (sender : String)
    (answer : SessionDescription) (s : HookState) (l : MeetingListeners)
    (hl : s.listeners = some l) :
    (s.meetingPeerConnections.get sender = none → onMeetingAnswer sender answer s = s) ∧
    (∀ pc, s.meetingPeerConnections.get sender = some pc →
      pc.signalingState ≠ .haveLocalOffer → onMeetingAnswer sender answer s = s) ∧
    (∀ pc, s.meetingPeerConnections.get sender = some pc →
      pc.signalingState = .haveLocalOffer →
      onMeetingAnswer sender answer s =
        { s with
          meetingPeerConnections :=
            s.meetingPeerConnections.set sender
              { pc with
                remoteDescription := some answer
                signalingState :=
                  match answer.type with
                  | .offer => .haveRemoteOffer
                  | .answer => .stable }
          pcCalls := s.pcCalls ++ [(pc.handle, PcCall.setRemoteDescription answer)] }) ∧
    ((∃ h, (onMeetingAnswer sender answer s).pcCalls =
          s.pcCalls ++ [(h, PcCall.setRemoteDescription answer)]) ↔
      ∃ pc, s.meetingPeerConnections.get sender = some pc ∧
        pc.signalingState = .haveLocalOffer) := by
  have hnone : s.meetingPeerConnections.get sender = none →
      onMeetingAnswer sender answer s = s := by
    intro h
    simp [onMeetingAnswer, hl, h]
  have hother : ∀ pc, s.meetingPeerConnections.get sender = some pc →
      pc.signalingState ≠ .haveLocalOffer → onMeetingAnswer sender answer s = s := by
    intro pc hpc hst
    simp [onMeetingAnswer, hl, hpc, hst]
  have hguard : ∀ pc, s.meetingPeerConnections.get sender = some pc →
      pc.signalingState = .haveLocalOffer →
      onMeetingAnswer sender answer s =
        { s with
          meetingPeerConnections :=
            s.meetingPeerConnections.set sender
              { pc with
                remoteDescription := some answer
                signalingState :=
                  match answer.type with
                  | .offer => .haveRemoteOffer
                  | .answer => .stable }
          pcCalls := s.pcCalls ++ [(pc.handle, PcCall.setRemoteDescription answer)] } := by
    intro pc hpc hst
    cases ht : answer.type <;>
      simp [onMeetingAnswer, hl, hpc, hst, invoke, PeerConnection.after, ht]
  refine ⟨hnone, hother, hguard, ?_⟩
  constructor
  · rintro ⟨h, hcalls⟩
    cases hpc : s.meetingPeerConnections.get sender with
    | none =>
      rw [hnone hpc] at hcalls
      have := congrArg List.length hcalls
      simp at this
    | some pc =>
      by_cases hst : pc.signalingState = .haveLocalOffer
      · exact ⟨pc, rfl, hst⟩
      · rw [hother pc hpc hst] at hcalls
        have := congrArg List.length hcalls
        simp at this
  · rintro ⟨pc, hpc, hst⟩
    exact ⟨pc.handle, by rw [hguard pc hpc hst]⟩



/-- The offers one run of the loop emits: one per participant other than the
local id, in list order. -/
theorem offerLoop_emitted (b : Browser) (stream : MediaStream) (iceConfig : IceConfig)
    (self : String) (participants : List String) (s : HookState)
    (hc : b.constructs (rtcConfigOf iceConfig) = true) :
    ∃ sdps : List String,
      sdps.length = (participants.filter (fun p => p != self)).length ∧
      (offerLoop b stream iceConfig self participants s).emitted =
        s.emitted ++
          List.zipWith (fun p sdp => Emit.meetingOffer p { type := .offer, sdp := sdp })
            (participants.filter (fun p => p != self)) sdps := by
  induction participants generalizing s with
  | nil => exact ⟨[], by simp [offerLoop]⟩
  | cons p rest ih =>
    by_cases hp : p = self
    · obtain ⟨sdps, hlen, hem⟩ := ih s
      refine ⟨sdps, ?_, ?_⟩
      · simpa [hp] using hlen
      · simpa [offerLoop, hp] using hem
    · obtain ⟨s1, pc1, pre, h1, -, -, -, hem1, -, -⟩ :=
        createPeerConnection_ok b stream iceConfig p s hc
      let offer : SessionDescription := { type := .offer, sdp := b.createOffer (handleOf p s1) }
      obtain ⟨sdps, hlen, hem⟩ :=
        ih (emit (.meetingOffer p offer)
          (invoke p (.setLocalDescription offer) (invoke p .createOffer s1)))
      refine ⟨b.createOffer (handleOf p s1) :: sdps, ?_, ?_⟩
      · simp [hp, hlen]
      · simp only [offerLoop, if_neg hp, h1]
        rw [hem]
        simp [emit, invoke_emitted, hem1, hp, offer]

/-- C4.  With the listeners registered, the socket connected as `self` and the
connection constructor not throwing, the `meeting-existing-participants`
listener emits exactly one `meeting-offer` per listed participant other than
`self`, addressed to that participant, in list order, and nothing else. -/
theorem bootstrap_offers_one_per_occupant (b : Browser) (s : HookState)
    (l : MeetingListeners) (self : String) (participants : List String)
    (hl : s.listeners = some l) (hself : s.socketId = some self)
    (hreg : l.existingParticipants = true)
    (hc : b.constructs (rtcConfigOf l.iceConfig) = true) :
    ∃ sdps : List String,
      sdps.length = (participants.filter (fun p => p != self)).length ∧
      (onMeetingExistingParticipants b participants s).emitted =
        s.emitted ++
          List.zipWith (fun p sdp => Emit.meetingOffer p { type := .offer, sdp := sdp })
            (participants.filter (fun p => p != self)) sdps := by
  simp only [onMeetingExistingParticipants, hl, hself, hreg, if_true]
  exact offerLoop_emitted b l.stream l.iceConfig self participants _ hc

/-- C4 at a sample: the occupants `["A", "me", "B"]` give two offers, to `"A"` and
to `"B"`. -/
theorem bootstrap_offers_one_per_occupant_witness :
    demoEntered.listeners = some demoListeners ∧ demoEntered.socketId = some "me" ∧
    ∃ sdps : List String,
      sdps.length = 2 ∧
      (onMeetingExistingParticipants demoBrowser ["A", "me", "B"] demoEntered).emitted =
        demoEntered.emitted ++
          List.zipWith (fun p sdp => Emit.meetingOffer p { type := .offer, sdp := sdp })
            ["A", "B"] sdps :=
  ⟨by decide, by decide,
    bootstrap_offers_one_per_occupant demoBrowser demoEntered demoListeners "me"
      ["A", "me", "B"] (by decide) (by decide) rfl rfl⟩

/-- What `cleanupMeetingRoom` leaves of the session map, the listeners, the handle
counter and the socket. -/
theorem cleanupMeetingRoom_fields (s : HookState) :
    (cleanupMeetingRoom s).meetingPeerConnections = [] ∧
    (cleanupMeetingRoom s).listeners = s.listeners ∧
    (cleanupMeetingRoom s).constructed = s.constructed ∧
    (cleanupMeetingRoom s).socketId = s.socketId := by
  cases hs : s.meetingRoomCall.localStream <;> cases hk : s.socketId <;>
    simp [cleanupMeetingRoom, hs, hk, emit]

/-- C6, as stated, fails.  After two offers were sent and the zone was left, the
session map is empty, yet a late `meeting-offer` from `"X"` stores a new
connection for `"X"`; and a bootstrap loop over `["A", "B"]` that is interrupted
by the exit after `"A"` stores a new connection for `"B"` when it resumes. -/
theorem late_offer_after_exit_creates_session :
    (cleanupMeetingRoom demoMesh).meetingPeerConnections = [] ∧
    (onMeetingEvent demoBrowser (.offer "X" demoOffer)
        (cleanupMeetingRoom demoMesh)).meetingPeerConnections =
      [("X", { handle := 2, remoteDescription := some demoOffer, signalingState := .stable })] ∧
    (offerLoop demoBrowser demoListeners.stream demoListeners.iceConfig "me" ["B"]
        (cleanupMeetingRoom
          (offerLoop demoBrowser demoListeners.stream demoListeners.iceConfig "me" ["A"]
            demoEntered))).meetingPeerConnections =
      [("B", { handle := 1, remoteDescription := none, signalingState := .haveLocalOffer })] := by
  decide

/-- C6, amended.  `cleanupMeetingRoom` empties the session map but leaves the
meeting listeners registered; so, with the constructor not throwing, a
`meeting-offer` from a participant handled after the exit stores a new
connection for that participant, with the offer as remote description, and a
bootstrap loop resumed after the exit for a participant other than the local id
stores a new connection for it, in `"have-local-offer"`. -/
theorem exit_keeps_listeners_registered (b : Browser) (s : HookState) (l : MeetingListeners)
    (participantId : String) (offer : SessionDescription) (hl : s.listeners = some l)
    (hc : b.constructs (rtcConfigOf l.iceConfig) = true) :
    (cleanupMeetingRoom s).meetingPeerConnections = [] ∧
    (cleanupMeetingRoom s).listeners = some l ∧
    (onMeetingEvent b (.offer participantId offer)
        (cleanupMeetingRoom s)).meetingPeerConnections =
      [(participantId,
        { handle := s.constructed, remoteDescription := some offer, signalingState := .stable })] ∧
    (∀ self, participantId ≠ self →
      (offerLoop b l.stream l.iceConfig self [participantId]
          (cleanupMeetingRoom s)).meetingPeerConnections =
        [(participantId,
          { handle := s.constructed, remoteDescription := none,
            signalingState := .haveLocalOffer })]) := by
  obtain ⟨h1, h2, h3, -⟩ := cleanupMeetingRoom_fields s
  have hget : (cleanupMeetingRoom s).meetingPeerConnections.get participantId = none := by
    rw [h1]; rfl
  have hnew := createPeerConnection_new b l.stream l.iceConfig hget hc
  refine ⟨h1, h2.trans hl, ?_, ?_⟩
  · have hflush : ∀ (queued : List Candidate) (t : HookState),
        (flushCandidates participantId queued t).meetingPeerConnections =
          t.meetingPeerConnections := by
      intro queued
      induction queued with
      | nil => intro t; rfl
      | cons c rest ih =>
        intro t
        have hstep : (invoke participantId (.addIceCandidate c) t).meetingPeerConnections =
            t.meetingPeerConnections := by
          cases hg : t.meetingPeerConnections.get participantId with
          | none => simp [invoke, hg]
          | some pc => rw [invoke_addIceCandidate c hg]
        simp only [flushCandidates, List.foldl_cons] at ih ⊢
        rw [ih, hstep]
    cases hq : l.candidateQueue.get participantId <;>
      simp [onMeetingEvent, onMeetingOffer, h2, hl, hnew, h1, h3, invoke, Dict.set, Dict.get,
        PeerConnection.after, hflush, emit, handleOf, hq]
  · intro self hself
    simp [offerLoop, hself, hnew, h1, h3, invoke, Dict.set, Dict.get, PeerConnection.after, emit,
      handleOf]


/-- C7, as stated, fails.  An offer is sent to `"X"`, a candidate from `"X"` is
buffered, then `"X"` leaves: the session of `"X"` is gone and the buffer of `"X"`
still holds the candidate. -/
theorem user_left_keeps_buffer :
    ((onMeetingEvents demoBrowser
          [.existingParticipants ["X"], .iceCandidate "X" "c"] demoEntered).listeners.map
        (fun l => l.candidateQueue.get "X")) = some (some ["c"]) ∧
    ((onMeetingEvents demoBrowser
          [.existingParticipants ["X"], .iceCandidate "X" "c", .userLeft "X"]
          demoEntered).listeners.map
        (fun l => l.candidateQueue.get "X")) = some (some ["c"]) ∧
    (onMeetingEvents demoBrowser
        [.existingParticipants ["X"], .iceCandidate "X" "c", .userLeft "X"]
        demoEntered).meetingPeerConnections.get "X" = none := by
  decide

/-- C7, amended.  With the meeting listeners registered, `meeting-user-left` for
`userId` removes `userId` from the session map and from the remote streams,
calls `close` on its connection when there is one (and makes no call
otherwise), leaves every candidate buffer as it was, that of `userId` included,
and leaves the session and the remote stream of every other identity
unchanged. -/
theorem user_left_removes_session_only (s : HookState) (l : MeetingListeners)
    (userId : String) (hl : s.listeners = some l) :
    (onMeetingUserLeft userId s).meetingPeerConnections.get userId = none ∧
    (onMeetingUserLeft userId s).meetingRoomCall.remoteStreams.get userId = none ∧
    (onMeetingUserLeft userId s).listeners = s.listeners ∧
    (∀ pc, s.meetingPeerConnections.get userId = some pc →
      (onMeetingUserLeft userId s).pcCalls = s.pcCalls ++ [(pc.handle, PcCall.close)]) ∧
    (s.meetingPeerConnections.get userId = none →
      (onMeetingUserLeft userId s).pcCalls = s.pcCalls) ∧
    (∀ other, other ≠ userId →
      (onMeetingUserLeft userId s).meetingPeerConnections.get other =
          s.meetingPeerConnections.get other ∧
        (onMeetingUserLeft userId s).meetingRoomCall.remoteStreams.get other =
          s.meetingRoomCall.remoteStreams.get other) := by
  cases hpc : s.meetingPeerConnections.get userId with
  | none =>
    refine ⟨?_, ?_, ?_, ?_, ?_, ?_⟩
    · simp [onMeetingUserLeft, hl, hpc]
    · simp [onMeetingUserLeft, hl, hpc, Dict.get_delete_self]
    · simp [onMeetingUserLeft, hl, hpc]
    · intro pc h; cases h
    · intro _; simp [onMeetingUserLeft, hl, hpc]
    · intro other ho
      simp [onMeetingUserLeft, hl, hpc, Dict.get_delete_ne _ _ _ ho]
  | some pc =>
    refine ⟨?_, ?_, ?_, ?_, ?_, ?_⟩
    · simp [onMeetingUserLeft, hl, hpc, invoke, Dict.get_delete_self]
    · simp [onMeetingUserLeft, hl, hpc, invoke, Dict.get_delete_self]
    · simp [onMeetingUserLeft, hl, hpc, invoke]
    · intro pc' h
      cases h
      simp [onMeetingUserLeft, hl, hpc, invoke]
    · intro h; cases h
    · intro other ho
      simp [onMeetingUserLeft, hl, hpc, invoke, Dict.get_delete_ne _ _ _ ho,
        Dict.get_set_ne _ _ _ _ ho]

/-- C2, amended, at a sample. -/
theorem candidate_applied_or_buffered_witness :
    demoOffered.listeners = some demoInitiator ∧
    demoOffered.meetingPeerConnections.get "X" =
      some { handle := 0, remoteDescription := none, signalingState := .haveLocalOffer } ∧
    (onMeetingEvent demoBrowser (.iceCandidate "X" "c") demoOffered).listeners =
      some { demoInitiator with candidateQueue := [("X", ["c"])] } ∧
    (demoEntered.meetingPeerConnections.get "X" = none ∧
      onMeetingEvent demoBrowser (.iceCandidate "X" "c") demoEntered = demoEntered) :=
  ⟨by decide, by decide,
    (candidate_applied_or_buffered demoBrowser demoOffered demoInitiator "X" "c"
      (by decide)).2.2.1 { handle := 0, remoteDescription := none, signalingState := .haveLocalOffer } (by decide) rfl,
    by decide,
    (candidate_applied_or_buffered demoBrowser demoEntered demoListeners "X" "c"
      (by decide)).1 (by decide)⟩

/-- C3 at a sample. -/
theorem answer_applied_only_in_have_local_offer_witness :
    (demoEntered.listeners = some demoListeners ∧
      demoEntered.meetingPeerConnections.get "X" = none ∧
      onMeetingAnswer "X" demoAnswer demoEntered = demoEntered) ∧
    (demoConnected.listeners = some demoInitiator ∧
      demoConnected.meetingPeerConnections.get "X" =
        some { handle := 0, remoteDescription := some demoAnswer, signalingState := .stable } ∧
      onMeetingAnswer "X" demoAnswer demoConnected = demoConnected) ∧
    (demoOffered.meetingPeerConnections.get "X" =
        some { handle := 0, remoteDescription := none, signalingState := .haveLocalOffer } ∧
      (onMeetingAnswer "X" demoAnswer demoOffered).pcCalls =
        demoOffered.pcCalls ++ [(0, PcCall.setRemoteDescription demoAnswer)]) :=
  ⟨⟨by decide, by decide,
      (answer_applied_only_in_have_local_offer "X" demoAnswer demoEntered demoListeners
        (by decide)).1 (by decide)⟩,
    ⟨by decide, by decide,
      (answer_applied_only_in_have_local_offer "X" demoAnswer demoConnected demoInitiator
        (by decide)).2.1 { handle := 0, remoteDescription := some demoAnswer, signalingState := .stable } (by decide) (by decide)⟩,
    ⟨by decide,
      congrArg HookState.pcCalls
        ((answer_applied_only_in_have_local_offer "X" demoAnswer demoOffered demoInitiator
          (by decide)).2.2.1 { handle := 0, remoteDescription := none, signalingState := .haveLocalOffer } (by decide) rfl)⟩⟩

/-- C6, amended, at a sample. -/
theorem exit_keeps_listeners_registered_witness :
    demoMesh.listeners = some demoInitiator ∧
    demoBrowser.constructs (rtcConfigOf demoInitiator.iceConfig) = true ∧
    (cleanupMeetingRoom demoMesh).listeners = some demoInitiator ∧
    (onMeetingEvent demoBrowser (.offer "X" demoOffer)
        (cleanupMeetingRoom demoMesh)).meetingPeerConnections =
      [("X", { handle := 2, remoteDescription := some demoOffer, signalingState := .stable })] :=
  ⟨by decide, rfl,
    (exit_keeps_listeners_registered demoBrowser demoMesh demoInitiator "X" demoOffer
      (by decide) rfl).2.1,
    (exit_keeps_listeners_registered demoBrowser demoMesh demoInitiator "X" demoOffer
      (by decide) rfl).2.2.1⟩

/-- C7, amended, at a sample. -/
theorem user_left_removes_session_only_witness :
    demoMesh.listeners = some demoInitiator ∧
    demoMesh.meetingPeerConnections.get "A" =
      some { handle := 0, remoteDescription := none, signalingState := .haveLocalOffer } ∧
    (onMeetingUserLeft "A" demoMesh).meetingPeerConnections.get "A" = none ∧
    (onMeetingUserLeft "A" demoMesh).pcCalls = demoMesh.pcCalls ++ [(0, PcCall.close)] ∧
    (onMeetingUserLeft "A" demoMesh).meetingPeerConnections.get "B" =
      demoMesh.meetingPeerConnections.get "B" :=
  ⟨by decide, by decide,
    (user_left_removes_session_only demoMesh demoInitiator "A" (by decide)).1,
    (user_left_removes_session_only demoMesh demoInitiator "A" (by decide)).2.2.2.1
      { handle := 0, remoteDescription := none, signalingState := .haveLocalOffer } (by decide),
    ((user_left_removes_session_only demoMesh demoInitiator "A" (by decide)).2.2.2.2.2 "B"
      (by decide)).1⟩

/-! ## The collision grid and the proximity tick -/

theorem initializeMeetingRoomCall_frame (b : Browser) (s : HookState) :
    (initializeMeetingRoomCall b s).player = s.player ∧
    (initializeMeetingRoomCall b s).isInArea2 = s.isInArea2 ∧
    (initializeMeetingRoomCall b s).otherPlayers = s.otherPlayers ∧
    (initializeMeetingRoomCall b s).playerProximityState = s.playerProximityState := by
  unfold initializeMeetingRoomCall
  cases s.iceConfig <;> cases b.getUserMedia <;> cases h : s.socketId <;> simp [emit, h]

theorem cleanupMeetingRoom_frame (s : HookState) :
    (cleanupMeetingRoom s).player = s.player ∧
    (cleanupMeetingRoom s).isInArea2 = s.isInArea2 ∧
    (cleanupMeetingRoom s).otherPlayers = s.otherPlayers ∧
    (cleanupMeetingRoom s).playerProximityState = s.playerProximityState := by
  cases hs : s.meetingRoomCall.localStream <;> cases hk : s.socketId <;>
    simp [cleanupMeetingRoom, hs, hk, emit]

theorem zoneFired_proximityLoop (player : Position) (entries : List (String × Sprite))
    (record : Dict Bool) : zoneFired (proximityLoop player entries record).1 = [] := by
  induction entries generalizing record with
  | nil => rfl
  | cons e rest ih =>
    obtain ⟨id, other⟩ := e
    simp only [proximityLoop, zoneFired, List.filter_append]
    have := ih (record.set id (isNearby player other.position))
    simp only [zoneFired] at this
    rw [this]
    split
    · simp [Fired.isZone]
    · split <;> simp [Fired.isZone]

/-- One tick with the local player present: the zone callback called is the edge
between the recorded membership and the membership of the position, which is
what the tick records. -/
theorem checkNearbyPlayers_zone (b : Browser) (collisions : Collisions) (s : HookState)
    (player : Sprite) (hp : s.player = some player) :
    zoneFired (checkNearbyPlayers b collisions s).1 =
        zoneEdge s.isInArea2 (checkArea2 collisions player.position.x player.position.y) ∧
    (checkNearbyPlayers b collisions s).2.isInArea2 =
        checkArea2 collisions player.position.x player.position.y ∧
    (checkNearbyPlayers b collisions s).2.player = s.player := by
  simp only [checkNearbyPlayers, hp, zoneFired, List.filter_append]
  have hloop := zoneFired_proximityLoop
  simp only [zoneFired] at hloop
  simp only [hloop, List.append_nil]
  cases hnow : checkArea2 collisions player.position.x player.position.y <;>
    cases hwas : s.isInArea2 <;>
    simp [zoneEdge, Fired.isZone, hp, hwas, (initializeMeetingRoomCall_frame b _).1,
      (initializeMeetingRoomCall_frame b _).2.1, (cleanupMeetingRoom_frame _).1,
      (cleanupMeetingRoom_frame _).2.1]

theorem alternates_zoneEdges (was : Bool) (samples : List Bool) :
    alternates (!was) (zoneEdges was samples) = true := by
  induction samples generalizing was with
  | nil => rfl
  | cons now rest ih =>
    have h := ih now
    cases was <;> cases now <;> simp_all [zoneEdges, zoneEdge, alternates]

theorem onSteps_cons (b : Browser) (collisions : Collisions) (step : GameStep)
    (rest : List GameStep) (s : HookState) :
    onSteps b collisions (step :: rest) s =
      ((onStep b collisions step s).1 ++ (onSteps b collisions rest (onStep b collisions step s).2).1,
        (onSteps b collisions rest (onStep b collisions step s).2).2) := rfl

theorem zoneFired_feed (b : Browser) (collisions : Collisions) (positions : List Position)
    (s : HookState) (player : Sprite) (hp : s.player = some player) :
    zoneFired (onSteps b collisions (feed positions) s).1 =
      zoneEdges s.isInArea2 (positions.map (fun p => checkArea2 collisions p.x p.y)) := by
  induction positions generalizing s player with
  | nil => rfl
  | cons p rest ih =>
    have hfeed : feed (p :: rest) = GameStep.movePlayer p :: GameStep.tick :: feed rest := by
      simp [feed]
    rw [hfeed, onSteps_cons, onSteps_cons]
    have hmove : (onStep b collisions (.movePlayer p) s) =
        ([], { s with player := some { player with position := p } }) := by
      simp [onStep, hp]
    rw [hmove]
    obtain ⟨h1, h2, h3⟩ :=
      checkNearbyPlayers_zone b collisions { s with player := some { player with position := p } }
        { player with position := p } rfl
    have htick : onStep b collisions .tick { s with player := some { player with position := p } } =
        checkNearbyPlayers b collisions { s with player := some { player with position := p } } :=
      rfl
    rw [htick]
    have hih := ih _ _ h3
    simp only [List.nil_append, zoneFired, List.filter_append] at hih h1 ⊢
    rw [hih, h1, h2]
    simp [zoneEdges]

/-- C12.  On a tick with the local player present, `initializeMeetingRoomCall` is
called exactly when `checkArea2` of the position is true and `isInArea2` was
false, `cleanupMeetingRoom` exactly when `checkArea2` is false and `isInArea2`
was true, and `isInArea2` becomes `checkArea2` of the position; so over every
sequence of positions fed tick by tick the calls are the edges of the sampled
zone membership (one call per transition, none inside or outside the zone on a
steady state), and from `isInArea2 = false` they alternate, the entry first. -/
theorem zone_callbacks_fire_on_transitions (b : Browser) (collisions : Collisions) :
    (∀ (s : HookState) (player : Sprite), s.player = some player →
      (Fired.initializeMeetingRoomCall ∈ (checkNearbyPlayers b collisions s).1 ↔
        checkArea2 collisions player.position.x player.position.y = true ∧
          s.isInArea2 = false) ∧
      (Fired.cleanupMeetingRoom ∈ (checkNearbyPlayers b collisions s).1 ↔
        checkArea2 collisions player.position.x player.position.y = false ∧
          s.isInArea2 = true) ∧
      zoneFired (checkNearbyPlayers b collisions s).1 =
        zoneEdge s.isInArea2 (checkArea2 collisions player.position.x player.position.y) ∧
      (checkNearbyPlayers b collisions s).2.isInArea2 =
        checkArea2 collisions player.position.x player.position.y) ∧
    (∀ (positions : List Position) (s : HookState) (player : Sprite),
      s.player = some player →
      zoneFired (onSteps b collisions (feed positions) s).1 =
        zoneEdges s.isInArea2 (positions.map (fun p => checkArea2 collisions p.x p.y))) ∧
    (∀ (positions : List Position) (s : HookState) (player : Sprite),
      s.player = some player → s.isInArea2 = false →
      alternates true (zoneFired (onSteps b collisions (feed positions) s).1) = true) := by
  refine ⟨?_, ?_, ?_⟩
  · intro s player hp
    obtain ⟨h1, h2, -⟩ := checkNearbyPlayers_zone b collisions s player hp
    have hi : Fired.initializeMeetingRoomCall ∈ (checkNearbyPlayers b collisions s).1 ↔
        Fired.initializeMeetingRoomCall ∈ zoneFired (checkNearbyPlayers b collisions s).1 := by
      simp [zoneFired, List.mem_filter, Fired.isZone]
    have hc : Fired.cleanupMeetingRoom ∈ (checkNearbyPlayers b collisions s).1 ↔
        Fired.cleanupMeetingRoom ∈ zoneFired (checkNearbyPlayers b collisions s).1 := by
      simp [zoneFired, List.mem_filter, Fired.isZone]
    refine ⟨?_, ?_, h1, h2⟩
    · rw [hi, h1]
      cases checkArea2 collisions player.position.x player.position.y <;>
        cases s.isInArea2 <;> simp [zoneEdge]
    · rw [hc, h1]
      cases checkArea2 collisions player.position.x player.position.y <;>
        cases s.isInArea2 <;> simp [zoneEdge]
  · exact zoneFired_feed b collisions
  · intro positions s player hp hwas
    rw [zoneFired_feed b collisions positions s player hp, hwas]
    exact alternates_zoneEdges false _

theorem cellAt_of_not_inGrid (collisions : Collisions) (gridY gridX : Int)
    (h : inGrid collisions gridY gridX = false) : cellAt collisions gridY gridX = none := by
  unfold cellAt
  by_cases hy : gridY < 0
  · simp [hy]
  · simp only [hy, if_false]
    cases hrow : collisions.get? gridY.toNat with
    | none => rfl
    | some row =>
      simp only
      by_cases hx : gridX < 0
      · simp [hx]
      · simp only [hx, if_false]
        have hlen : gridY.toNat < collisions.length := by
          by_contra hge
          have : collisions.get? gridY.toNat = none := by
            simp only [List.get?_eq_getElem?]
            exact List.getElem?_eq_none (Nat.le_of_not_lt hge)
          rw [this] at hrow
          cases hrow
        have hy' : gridY < collisions.length := by omega
        simp only [inGrid, hrow, Option.getD_some] at h
        have hx' : ¬ gridX < row.length := by
          intro hlt
          have h0 : (0 : Int) ≤ gridY := by omega
          have h1 : (0 : Int) ≤ gridX := by omega
          simp [h0, h1, hy', hlt] at h
        simp only [List.get?_eq_getElem?]
        exact List.getElem?_eq_none (by omega)

theorem mem_generateBoundaries (collisions : Collisions) (boundary : Boundary) :
    boundary ∈ generateBoundaries collisions ↔
      ∃ (i j : Nat) (row : List Int), collisions.get? i = some row ∧ row.get? j = some 1 ∧
        boundary = { x := (j : Int) * 32, y := (i : Int) * 32, width := 27, height := 22 } := by
  unfold generateBoundaries
  simp only [List.mem_flatMap, List.mem_filterMap, List.mem_enum_iff_getElem?, BOUNDARY_SIZE,
    List.get?_eq_getElem?]
  constructor
  · rintro ⟨⟨i, row⟩, hrow, ⟨j, cell⟩, hcell, hb⟩
    simp only at hrow hcell hb
    by_cases h1 : cell = 1
    · subst h1
      simp only [if_true, Option.some.injEq] at hb
      exact ⟨i, j, row, hrow, hcell, by rw [← hb]; norm_num⟩
    · simp [h1] at hb
  · rintro ⟨i, j, row, hrow, hcell, hb⟩
    refine ⟨(i, row), hrow, (j, 1), hcell, ?_⟩
    simp only [if_true, hb]
    norm_num

theorem checkCollision_iff (collisions : Collisions) (s : HookState) (x y : Int) :
    checkCollision (initBoundaries collisions s) x y = true ↔
      ∃ (i j : Nat) (row : List Int), collisions.get? i = some row ∧ row.get? j = some 1 ∧
        x < (j : Int) * 32 + 27 ∧ x + 30 > (j : Int) * 32 ∧
        y < (i : Int) * 32 + 22 ∧ y + 30 > (i : Int) * 32 := by
  simp only [checkCollision, initBoundaries, List.any_eq_true, Bool.and_eq_true, decide_eq_true_eq]
  constructor
  · rintro ⟨boundary, hmem, ⟨⟨h1, h2⟩, h3⟩, h4⟩
    obtain ⟨i, j, row, hrow, hcell, hb⟩ := (mem_generateBoundaries collisions boundary).1 hmem
    subst hb
    exact ⟨i, j, row, hrow, hcell, h1, h2, h3, h4⟩
  · rintro ⟨i, j, row, hrow, hcell, h1, h2, h3, h4⟩
    exact ⟨_, (mem_generateBoundaries collisions _).2 ⟨i, j, row, hrow, hcell, rfl⟩,
      ⟨⟨h1, h2⟩, h3⟩, h4⟩

/-- C13, as stated, fails.  On the grid `[[1, 0], [0, 2]]` the positions
`(-100, -100)` and `(500, 10)` lie in cells that are not cells of the grid, and
`checkCollision` returns false for both. -/
theorem checkCollision_false_out_of_grid :
    inGrid [[1, 0], [0, 2]] (Int.fdiv (-100) BOUNDARY_SIZE) (Int.fdiv (-100) BOUNDARY_SIZE) = false ∧
    checkCollision (initBoundaries [[1, 0], [0, 2]] HookState.initial) (-100) (-100) = false ∧
    inGrid [[1, 0], [0, 2]] (Int.fdiv 10 BOUNDARY_SIZE) (Int.fdiv 500 BOUNDARY_SIZE) = false ∧
    checkCollision (initBoundaries [[1, 0], [0, 2]] HookState.initial) 500 10 = false := by
  decide

/-- C13, amended.  For a position whose cell is not a cell of the grid,
`checkArea2` returns false (the lookup is total).  `checkCollision` does not
look the cell up: it returns true exactly when the 30 by 30 box at `(x, y)`
overlaps the rectangle, 27 wide and 22 high at `(32 j, 32 i)`, of a cell
`(i, j)` equal to 1; so it returns false when `x ≤ -30`, when `y ≤ -30`, at and
below `32 * rows - 10`, and at and right of `32 * width - 5` for a grid whose
rows have at most `width` cells. -/
theorem out_of_grid_not_zone_blocking_by_overlap (collisions : Collisions) (s : HookState)
    (x y : Int) :
    (inGrid collisions (Int.fdiv y BOUNDARY_SIZE) (Int.fdiv x BOUNDARY_SIZE) = false →
      checkArea2 collisions x y = false) ∧
    (checkCollision (initBoundaries collisions s) x y = true ↔
      ∃ (i j : Nat) (row : List Int), collisions.get? i = some row ∧ row.get? j = some 1 ∧
        x < (j : Int) * 32 + 27 ∧ x + 30 > (j : Int) * 32 ∧
        y < (i : Int) * 32 + 22 ∧ y + 30 > (i : Int) * 32) ∧
    (x + 30 ≤ 0 ∨ y + 30 ≤ 0 ∨ 32 * (collisions.length : Int) ≤ y + 10 →
      checkCollision (initBoundaries collisions s) x y = false) ∧
    (∀ width : Nat, (∀ row ∈ collisions, row.length ≤ width) → 32 * (width : Int) ≤ x + 5 →
      checkCollision (initBoundaries collisions s) x y = false) := by
  refine ⟨?_, checkCollision_iff collisions s x y, ?_, ?_⟩
  · intro h
    simp [checkArea2, cellAt_of_not_inGrid collisions _ _ h]
  · intro h
    rw [Bool.eq_false_iff]
    intro hcol
    obtain ⟨i, j, row, hrow, hcell, h1, h2, h3, h4⟩ := (checkCollision_iff collisions s x y).1 hcol
    have hi : i < collisions.length := by
      rw [List.get?_eq_getElem?] at hrow
      exact (List.getElem?_eq_some.1 hrow).1
    omega
  · intro width hw hx
    rw [Bool.eq_false_iff]
    intro hcol
    obtain ⟨i, j, row, hrow, hcell, h1, h2, h3, h4⟩ := (checkCollision_iff collisions s x y).1 hcol
    have hmem : row ∈ collisions := List.get?_mem hrow
    have hj : j < row.length := by
      rw [List.get?_eq_getElem?] at hcell
      exact (List.getElem?_eq_some.1 hcell).1
    have := hw row hmem
    omega

/-- C13, amended, at a sample: the position `(40, -100)` above the grid. -/
theorem out_of_grid_not_zone_blocking_by_overlap_witness :
    inGrid [[1, 0], [0, 2]] (Int.fdiv (-100) BOUNDARY_SIZE) (Int.fdiv 40 BOUNDARY_SIZE) = false ∧
    checkArea2 [[1, 0], [0, 2]] 40 (-100) = false ∧
    checkCollision (initBoundaries [[1, 0], [0, 2]] HookState.initial) 40 (-100) = false :=
  ⟨by decide,
    (out_of_grid_not_zone_blocking_by_overlap [[1, 0], [0, 2]] HookState.initial 40 (-100)).1
      (by decide),
    (out_of_grid_not_zone_blocking_by_overlap [[1, 0], [0, 2]] HookState.initial 40
      (-100)).2.2.1 (Or.inr (Or.inl (by decide)))⟩

theorem gameView_invoke (k : String) (c : PcCall) (s : HookState) :
    gameView (invoke k c s) = gameView s := by
  unfold invoke
  split <;> rfl

theorem gameView_emit (e : Emit) (s : HookState) : gameView (emit e s) = gameView s := rfl

theorem gameView_createPeerConnection (b : Browser) (stream : MediaStream)
    (iceConfig : IceConfig) (k : String) (s s1 : HookState)
    (h : createPeerConnection b stream iceConfig k s = .ok s1) : gameView s1 = gameView s := by
  unfold createPeerConnection at h
  split at h
  · cases h; rfl
  · split at h
    · cases h; rfl
    · cases h

theorem gameView_flushCandidates (k : String) (queued : List Candidate) (s : HookState) :
    gameView (flushCandidates k queued s) = gameView s := by
  induction queued generalizing s with
  | nil => rfl
  | cons c rest ih =>
    simp only [flushCandidates, List.foldl_cons] at ih ⊢
    rw [ih, gameView_invoke]

theorem gameView_onMeetingOffer (b : Browser) (sender : String) (offer : SessionDescription)
    (s : HookState) : gameView (onMeetingOffer b sender offer s) = gameView s := by
  unfold onMeetingOffer
  split
  · rfl
  · split
    · rfl
    · rename_i l s1 h1
      have hc := gameView_createPeerConnection b _ _ _ _ _ h1
      simp only [gameView_emit, gameView_invoke]
      split
      · show gameView (flushCandidates _ _ _) = _
        rw [gameView_flushCandidates, gameView_invoke, hc]
      · rw [gameView_invoke, hc]

theorem gameView_onMeetingAnswer (sender : String) (answer : SessionDescription)
    (s : HookState) : gameView (onMeetingAnswer sender answer s) = gameView s := by
  unfold onMeetingAnswer
  split
  · rfl
  · split
    · split
      · exact gameView_invoke _ _ _
      · rfl
    · rfl

theorem gameView_onMeetingIceCandidateQueueing (sender : String) (c : Candidate)
    (s : HookState) : gameView (onMeetingIceCandidateQueueing sender c s) = gameView s := by
  unfold onMeetingIceCandidateQueueing
  split
  · rfl
  · split
    · rfl
    · split
      · exact gameView_invoke _ _ _
      · rfl

theorem gameView_onMeetingIceCandidateDirect (sender : String) (c : Candidate)
    (s : HookState) : gameView (onMeetingIceCandidateDirect sender c s) = gameView s := by
  unfold onMeetingIceCandidateDirect
  split
  · rfl
  · split
    · exact gameView_invoke _ _ _
    · rfl

theorem gameView_onMeetingUserLeft (userId : String) (s : HookState) :
    gameView (onMeetingUserLeft userId s) = gameView s := by
  unfold onMeetingUserLeft
  split
  · rfl
  · simp only
    split
    · have h := gameView_invoke userId PcCall.close
        { s with
          meetingRoomCall :=
            { s.meetingRoomCall with
              remoteStreams := s.meetingRoomCall.remoteStreams.delete userId } }
      simp only [gameView] at h ⊢
      simp only [Prod.mk.injEq] at h ⊢
      exact h
    · rfl

theorem gameView_offerLoop (b : Browser) (stream : MediaStream) (iceConfig : IceConfig)
    (self : String) (participants : List String) (s : HookState) :
    gameView (offerLoop b stream iceConfig self participants s) = gameView s := by
  induction participants generalizing s with
  | nil => rfl
  | cons p rest ih =>
    unfold offerLoop
    split
    · exact ih s
    · split
      · rfl
      · rename_i s1 h1
        rw [ih, gameView_emit, gameView_invoke, gameView_invoke,
          gameView_createPeerConnection b _ _ _ _ _ h1]

theorem gameView_onMeetingExistingParticipants (b : Browser) (participants : List String)
    (s : HookState) : gameView (onMeetingExistingParticipants b participants s) = gameView s := by
  unfold onMeetingExistingParticipants
  split
  · split
    · rw [gameView_offerLoop]
      rfl
    · rfl
  · rfl

theorem gameView_onUserMedia (s : HookState) : gameView (onUserMedia s) = gameView s := by
  unfold onUserMedia
  split
  · rfl
  · unfold resumeMeetingRoomCall
    split
    · rfl
    · simp only
      split <;> rfl

theorem gameView_onMeetingEvent (b : Browser) (e : MeetingEvent) (s : HookState) :
    gameView (onMeetingEvent b e s) = gameView s := by
  cases e with
  | userJoined _ => rfl
  | iceCandidate sender c =>
    simp only [onMeetingEvent]
    rw [gameView_onMeetingIceCandidateDirect, gameView_onMeetingIceCandidateQueueing]
  | offer sender offer => exact gameView_onMeetingOffer b sender offer s
  | answer sender answer => exact gameView_onMeetingAnswer sender answer s
  | userLeft userId => exact gameView_onMeetingUserLeft userId s
  | existingParticipants ps => exact gameView_onMeetingExistingParticipants b ps s

namespace Dict

theorem mem_keys_set {α : Type} (d : Dict α) (k x : String) (v : α) :
    x ∈ (d.set k v).keys ↔ x ∈ d.keys ∨ x = k := by
  induction d with
  | nil => simp [set, keys]
  | cons e rest ih =>
    obtain ⟨k₀, v₀⟩ := e
    by_cases h₀ : k₀ = k
    · subst h₀
      simp only [set, if_true, keys, List.map_cons, List.mem_cons]
      tauto
    · simp only [set, h₀, if_false, keys, List.map_cons, List.mem_cons] at ih ⊢
      rw [ih]
      tauto

theorem nodup_keys_set {α : Type} (d : Dict α) (k : String) (v : α) (h : d.keys.Nodup) :
    (d.set k v).keys.Nodup := by
  induction d with
  | nil => simp [set, keys]
  | cons e rest ih =>
    obtain ⟨k₀, v₀⟩ := e
    have hcons : k₀ ∉ keys rest ∧ (keys rest).Nodup := by
      simpa [keys] using h
    by_cases h₀ : k₀ = k
    · subst h₀
      simpa [set, keys] using h
    · have hmem : k₀ ∉ (set rest k v).keys := by
        rw [mem_keys_set]
        rintro (h1 | h1)
        · exact hcons.1 h1
        · exact h₀ h1
      have := ih hcons.2
      simp only [set, h₀, if_false, keys, List.map_cons, List.nodup_cons] at this hmem ⊢
      exact ⟨hmem, this⟩

theorem mem_keys_delete {α : Type} (d : Dict α) (k x : String) :
    x ∈ (d.delete k).keys ↔ x ∈ d.keys ∧ x ≠ k := by
  induction d with
  | nil => simp [delete, keys]
  | cons e rest ih =>
    obtain ⟨k₀, v₀⟩ := e
    by_cases h₀ : k₀ = k
    · subst h₀
      simp only [delete, if_true, keys, List.map_cons, List.mem_cons] at ih ⊢
      rw [ih]
      constructor
      · rintro ⟨h1, h2⟩
        exact ⟨Or.inr h1, h2⟩
      · rintro ⟨h1 | h1, h2⟩
        · exact absurd h1 h2
        · exact ⟨h1, h2⟩
    · simp only [delete, h₀, if_false, keys, List.map_cons, List.mem_cons] at ih ⊢
      rw [ih]
      constructor
      · rintro (h1 | ⟨h1, h2⟩)
        · exact ⟨Or.inl h1, by rw [h1]; exact h₀⟩
        · exact ⟨Or.inr h1, h2⟩
      · rintro ⟨h1 | h1, h2⟩
        · exact Or.inl h1
        · exact Or.inr ⟨h1, h2⟩

theorem nodup_keys_delete {α : Type} (d : Dict α) (k : String) (h : d.keys.Nodup) :
    (d.delete k).keys.Nodup := by
  induction d with
  | nil => simp [delete, keys]
  | cons e rest ih =>
    obtain ⟨k₀, v₀⟩ := e
    have hcons : k₀ ∉ keys rest ∧ (keys rest).Nodup := by
      simpa [keys] using h
    by_cases h₀ : k₀ = k
    · simpa [delete, h₀] using ih hcons.2
    · have hmem : k₀ ∉ (delete rest k).keys := by
        rw [mem_keys_delete]
        exact fun h1 => hcons.1 h1.1
      have := ih hcons.2
      simp only [delete, h₀, if_false, keys, List.map_cons, List.nodup_cons] at this hmem ⊢
      exact ⟨hmem, this⟩

theorem get_eq_none_of_not_mem_keys {α : Type} (d : Dict α) (k : String) (h : k ∉ d.keys) :
    d.get k = none := by
  induction d with
  | nil => rfl
  | cons e rest ih =>
    obtain ⟨k₀, v₀⟩ := e
    simp only [keys, List.map_cons, List.mem_cons, not_or] at h
    have h₀ : ¬ k₀ = k := fun h' => h.1 h'.symm
    simp only [get, h₀, if_false]
    exact ih (by simpa [keys] using h.2)

end Dict

theorem firedFor_append (id : String) (a c : List Fired) :
    firedFor id (a ++ c) = firedFor id a ++ firedFor id c := by
  simp [firedFor]

/-- The loop fires nothing for a peer that is not among the entries, and leaves
its record as it was. -/
theorem proximityLoop_absent (player : Position) (entries : List (String × Sprite))
    (record : Dict Bool) (id : String) (h : Dict.get entries id = none) :
    firedFor id (proximityLoop player entries record).1 = [] ∧
    (proximityLoop player entries record).2.get id = record.get id := by
  induction entries generalizing record with
  | nil => exact ⟨rfl, rfl⟩
  | cons e rest ih =>
    obtain ⟨k, other⟩ := e
    have hk : ¬ k = id := by
      intro hk
      simp [Dict.get, hk] at h
    have hrest : Dict.get rest id = none := by
      simpa [Dict.get, hk] using h
    obtain ⟨ih1, ih2⟩ := ih (record.set k (isNearby player other.position)) hrest
    simp only [proximityLoop, firedFor_append]
    refine ⟨?_, ?_⟩
    · rw [ih1]
      split
      · simp [firedFor, Fired.isFor, hk]
      · split <;> simp [firedFor, Fired.isFor, hk]
    · rw [ih2, Dict.get_set_ne _ _ _ _ (Ne.symm hk)]

/-- The loop takes, for a peer among the entries, the branch of the edge between
its record and its being in range now, and records the latter. -/
theorem proximityLoop_present (player : Position) (entries : List (String × Sprite))
    (record : Dict Bool) (id : String) (other : Sprite)
    (hnd : (Dict.keys entries).Nodup) (h : Dict.get entries id = some other) :
    firedFor id (proximityLoop player entries record).1 =
        peerEdge id (truthy (record.get id)) (isNearby player other.position) ∧
    (proximityLoop player entries record).2.get id =
        some (isNearby player other.position) := by
  induction entries generalizing record with
  | nil => simp [Dict.get] at h
  | cons e rest ih =>
    obtain ⟨k, sp⟩ := e
    have hcons : k ∉ Dict.keys rest ∧ (Dict.keys rest).Nodup := by
      simpa [Dict.keys] using hnd
    by_cases hk : k = id
    · subst hk
      have hsp : sp = other := by
        simpa [Dict.get] using h
      subst hsp
      obtain ⟨a1, a2⟩ :=
        proximityLoop_absent player rest (record.set k (isNearby player sp.position)) k
          (Dict.get_eq_none_of_not_mem_keys rest k hcons.1)
      simp only [proximityLoop, firedFor_append]
      refine ⟨?_, ?_⟩
      · rw [a1, List.append_nil]
        unfold peerEdge
        split
        · simp [firedFor, Fired.isFor]
        · split <;> simp [firedFor, Fired.isFor]
      · rw [a2, Dict.get_set_self]
    · have hrest : Dict.get rest id = some other := by
        simpa [Dict.get, hk] using h
      obtain ⟨ih1, ih2⟩ := ih (record.set k (isNearby player sp.position)) hcons.2 hrest
      simp only [proximityLoop, firedFor_append]
      refine ⟨?_, ih2⟩
      rw [ih1, Dict.get_set_ne _ _ _ _ (Ne.symm hk)]
      split
      · simp [firedFor, Fired.isFor, hk]
      · split <;> simp [firedFor, Fired.isFor, hk]

/-- A list of zone callbacks holds no proximity branch of a peer. -/
theorem firedFor_zone (id : String) (fired : List Fired) (h : zoneFired fired = fired) :
    firedFor id fired = [] := by
  induction fired with
  | nil => rfl
  | cons f rest ih =>
    cases f with
    | initializeMeetingRoomCall =>
      have hrest : zoneFired rest = rest := by
        simpa [zoneFired, Fired.isZone] using h
      simpa [firedFor, Fired.isFor] using ih hrest
    | cleanupMeetingRoom =>
      have hrest : zoneFired rest = rest := by
        simpa [zoneFired, Fired.isZone] using h
      simpa [firedFor, Fired.isFor] using ih hrest
    | nearby k =>
      have hlen := congrArg List.length h
      have hle : (List.filter Fired.isZone rest).length ≤ rest.length := List.length_filter_le _ _
      simp [zoneFired, Fired.isZone] at hlen
      omega
    | leftArea k =>
      have hlen := congrArg List.length h
      have hle : (List.filter Fired.isZone rest).length ≤ rest.length := List.length_filter_le _ _
      simp [zoneFired, Fired.isZone] at hlen
      omega

/-- One tick, seen from a peer: the loop runs on the directory and the record of
the state before the tick. -/
theorem checkNearbyPlayers_eq (b : Browser) (collisions : Collisions) (s : HookState)
    (id : String) (player : Sprite) (hp : s.player = some player) :
    firedFor id (checkNearbyPlayers b collisions s).1 =
        firedFor id
          (proximityLoop player.position s.otherPlayers s.playerProximityState).1 ∧
    (checkNearbyPlayers b collisions s).2.playerProximityState =
        (proximityLoop player.position s.otherPlayers s.playerProximityState).2 ∧
    (checkNearbyPlayers b collisions s).2.otherPlayers = s.otherPlayers ∧
    (checkNearbyPlayers b collisions s).2.player = s.player := by
  unfold checkNearbyPlayers
  split
  · rename_i h
    rw [hp] at h
    cases h
  · rename_i player' h
    have hpl : player' = player := by
      rw [hp] at h
      cases h
      rfl
    subst hpl
    have key : ∀ z : List Fired × HookState, firedFor id z.1 = [] →
        z.2.otherPlayers = s.otherPlayers →
        z.2.playerProximityState = s.playerProximityState → z.2.player = s.player →
        firedFor id
            (z.1 ++ (proximityLoop player'.position z.2.otherPlayers
              z.2.playerProximityState).1) =
          firedFor id
            (proximityLoop player'.position s.otherPlayers s.playerProximityState).1 ∧
        ({ z.2 with
            playerProximityState :=
              (proximityLoop player'.position z.2.otherPlayers
                z.2.playerProximityState).2 } : HookState).playerProximityState =
          (proximityLoop player'.position s.otherPlayers s.playerProximityState).2 ∧
        ({ z.2 with
            playerProximityState :=
              (proximityLoop player'.position z.2.otherPlayers
                z.2.playerProximityState).2 } : HookState).otherPlayers = s.otherPlayers ∧
        ({ z.2 with
            playerProximityState :=
              (proximityLoop player'.position z.2.otherPlayers
                z.2.playerProximityState).2 } : HookState).player = s.player := by
      intro z a1 a2 a3 a4
      rw [firedFor_append, a1, a2, a3]
      exact ⟨by simp, rfl, rfl, a4⟩
    apply key
    · split_ifs <;> simp [firedFor, Fired.isFor]
    · split_ifs
      · exact (initializeMeetingRoomCall_frame b _).2.2.1
      · exact (cleanupMeetingRoom_frame _).2.2.1
      · rfl
    · split_ifs
      · exact (initializeMeetingRoomCall_frame b _).2.2.2
      · exact (cleanupMeetingRoom_frame _).2.2.2
      · rfl
    · split_ifs
      · exact (initializeMeetingRoomCall_frame b _).1
      · exact (cleanupMeetingRoom_frame _).1
      · rfl


/-- A tick for a peer of the directory: the branch taken is the edge between the
record and the peer being in range; the tick records the latter and leaves the
directory and the local player as they were. -/
theorem checkNearbyPlayers_present (b : Browser) (collisions : Collisions) (s : HookState)
    (id : String) (player other : Sprite) (hp : s.player = some player)
    (hnd : (Dict.keys s.otherPlayers).Nodup) (ho : s.otherPlayers.get id = some other) :
    firedFor id (checkNearbyPlayers b collisions s).1 =
        peerEdge id (truthy (s.playerProximityState.get id))
          (isNearby player.position other.position) ∧
    (checkNearbyPlayers b collisions s).2.playerProximityState.get id =
        some (isNearby player.position other.position) ∧
    (checkNearbyPlayers b collisions s).2.otherPlayers = s.otherPlayers ∧
    (checkNearbyPlayers b collisions s).2.player = s.player := by
  obtain ⟨h1, h2, h3, h4⟩ := checkNearbyPlayers_eq b collisions s id player hp
  obtain ⟨l1, l2⟩ :=
    proximityLoop_present player.position s.otherPlayers s.playerProximityState id other hnd ho
  exact ⟨h1.trans l1, by rw [h2]; exact l2, h3, h4⟩

/-- A tick fires nothing for an id that is not in the directory and leaves its
record as it was. -/
theorem checkNearbyPlayers_absent (b : Browser) (collisions : Collisions) (s : HookState)
    (id : String) (ho : s.otherPlayers.get id = none) :
    firedFor id (checkNearbyPlayers b collisions s).1 = [] ∧
    (checkNearbyPlayers b collisions s).2.playerProximityState.get id =
        s.playerProximityState.get id := by
  cases hp : s.player with
  | none => simp [checkNearbyPlayers, hp, firedFor]
  | some player =>
    obtain ⟨h1, h2, -, -⟩ := checkNearbyPlayers_eq b collisions s id player hp
    obtain ⟨l1, l2⟩ :=
      proximityLoop_absent player.position s.otherPlayers s.playerProximityState id ho
    exact ⟨h1.trans l1, by rw [h2]; exact l2⟩

/-- No player event touches the proximity record or the local player. -/
theorem onPlayerEvent_record (e : PlayerEvent) (s : HookState) :
    (onPlayerEvent e s).playerProximityState = s.playerProximityState ∧
    (onPlayerEvent e s).player = s.player := by
  cases e with
  | currentPlayers players =>
    simp only [onPlayerEvent, handleCurrentPlayers]
    split <;> exact ⟨rfl, rfl⟩
  | newPlayer info =>
    simp only [onPlayerEvent, handleNewPlayer]
    split <;> exact ⟨rfl, rfl⟩
  | playerMoved info => exact ⟨rfl, rfl⟩
  | playerDisconnected id => exact ⟨rfl, rfl⟩

/-- The keys of the directory stay distinct under every player event. -/
theorem onPlayerEvent_nodup (e : PlayerEvent) (s : HookState)
    (hnd : (Dict.keys s.otherPlayers).Nodup) :
    (Dict.keys (onPlayerEvent e s).otherPlayers).Nodup := by
  cases e with
  | currentPlayers players =>
    simp only [onPlayerEvent, handleCurrentPlayers]
    split
    · exact hnd
    · simp only
      have hfold : ∀ (l : List (String × PlayerInfo)) (acc : Dict Sprite),
          (Dict.keys acc).Nodup →
          (Dict.keys (l.foldl
            (fun acc e => acc.set e.1 (spriteFor s.characterImages e.1 e.2)) acc)).Nodup := by
        intro l
        induction l with
        | nil => intro acc h; exact h
        | cons x rest ih =>
          intro acc h
          exact ih _ (Dict.nodup_keys_set acc _ _ h)
      exact hfold players [] (by simp [Dict.keys])
  | newPlayer info =>
    simp only [onPlayerEvent, handleNewPlayer]
    split
    · exact hnd
    · simp only
      split
      · exact hnd
      · exact Dict.nodup_keys_set _ _ _ hnd
  | playerMoved info =>
    simp only [onPlayerEvent, handlePlayerMoved]
    split
    · exact hnd
    · exact Dict.nodup_keys_set _ _ _ hnd
  | playerDisconnected id =>
    exact Dict.nodup_keys_delete _ _ hnd

/-- The proximity branches along a sampled signal alternate, `nearby` first when
the record before the first sample is false. -/
theorem alternatesFor_peerEdges (id : String) (was : Bool) (samples : List Bool) :
    alternatesFor id (!was) (peerEdges id was samples) = true := by
  induction samples generalizing was with
  | nil => rfl
  | cons now rest ih =>
    have h := ih now
    cases was <;> cases now <;> simp_all [peerEdges, peerEdge, alternatesFor]

/-- Over a run in which the peer stays in the directory, the proximity branches
taken for it are the edges of its in-range signal sampled at the ticks. -/
theorem firedFor_onSteps (b : Browser) (collisions : Collisions) (id : String)
    (steps : List GameStep) (s : HookState) (other : Sprite)
    (hnd : (Dict.keys s.otherPlayers).Nodup) (ho : s.otherPlayers.get id = some other)
    (hsteps : ∀ step ∈ steps, GameStep.replaces id step = false) :
    firedFor id (onSteps b collisions steps s).1 =
      peerEdges id (truthy (s.playerProximityState.get id))
        (nearSamples b collisions id steps s) := by
  induction steps generalizing s other with
  | nil => rfl
  | cons step rest ih =>
    have hrest : ∀ step ∈ rest, GameStep.replaces id step = false :=
      fun e he => hsteps e (List.mem_cons_of_mem _ he)
    rw [onSteps_cons, firedFor_append]
    cases step with
    | tick =>
      cases hp : s.player with
      | none =>
        have htick : onStep b collisions .tick s = ([], s) := by
          simp [onStep, checkNearbyPlayers, hp]
        rw [htick]
        simp only [nearSamples, hp, htick]
        rw [ih s other hnd ho hrest]
        simp [firedFor]
      | some player =>
        obtain ⟨h1, h2, h3, h4⟩ :=
          checkNearbyPlayers_present b collisions s id player other hp hnd ho
        have htick : onStep b collisions .tick s = checkNearbyPlayers b collisions s := rfl
        rw [htick, h1]
        rw [ih (checkNearbyPlayers b collisions s).2 other (by rw [h3]; exact hnd)
          (by rw [h3]; exact ho) hrest, h2]
        simp only [nearSamples, hp, ho, htick, peerEdges, truthy]
    | movePlayer position =>
      have hstep : (onStep b collisions (.movePlayer position) s).1 = [] := rfl
      rw [hstep]
      rw [ih (onStep b collisions (.movePlayer position) s).2 other hnd ho hrest]
      simp only [nearSamples, firedFor, List.filter_nil, List.nil_append]
      cases s.player <;> cases s.otherPlayers.get id <;> rfl
    | playerEvent e =>
      have hrep : replaces id e = false := hsteps (.playerEvent e) (List.mem_cons_self _ _)
      obtain ⟨sp', hsp', -⟩ := onPlayerEvent_identity e s id other ho hrep
      have hstep : onStep b collisions (.playerEvent e) s = ([], onPlayerEvent e s) := rfl
      rw [hstep]
      rw [ih (onPlayerEvent e s) sp' (onPlayerEvent_nodup e s hnd) hsp' hrest,
        (onPlayerEvent_record e s).1]
      simp only [nearSamples, hstep, firedFor, List.filter_nil, List.nil_append]
    | meetingEvent e =>
      have hview := gameView_onMeetingEvent b e s
      simp only [gameView, Prod.mk.injEq] at hview
      obtain ⟨v1, v2, v3, -⟩ := hview
      have hstep : onStep b collisions (.meetingEvent e) s = ([], onMeetingEvent b e s) := rfl
      rw [hstep]
      rw [ih (onMeetingEvent b e s) other (by rw [v2]; exact hnd) (by rw [v2]; exact ho) hrest,
        v3]
      simp only [nearSamples, hstep, firedFor, List.filter_nil, List.nil_append]
    | userMedia =>
      have hview := gameView_onUserMedia s
      simp only [gameView, Prod.mk.injEq] at hview
      obtain ⟨v1, v2, v3, -⟩ := hview
      have hstep : onStep b collisions .userMedia s = ([], onUserMedia s) := rfl
      rw [hstep]
      rw [ih (onUserMedia s) other (by rw [v2]; exact hnd) (by rw [v2]; exact ho) hrest, v3]
      simp only [nearSamples, hstep, firedFor, List.filter_nil, List.nil_append]

/-- C11, as stated, fails.  The peer `"P"` joins in range and a tick takes the
`nearby` branch; `"P"` disconnects and the next tick takes no `left` branch,
though the run of ticks in range has ended; `"P"` joins again in range and the
tick after that takes no `nearby` branch, though a new run has begun. -/
theorem leave_in_range_fires_no_left_event :
    (onSteps demoBrowser demoGrid
        [.playerEvent (.newPlayer demoPeer), .tick, .playerEvent (.playerDisconnected "P"),
          .tick] demoGame).1 = [Fired.nearby "P"] ∧
    (onSteps demoBrowser demoGrid
        [.playerEvent (.newPlayer demoPeer), .tick, .playerEvent (.playerDisconnected "P"),
          .tick, .playerEvent (.newPlayer demoPeer), .tick] demoGame).1 = [Fired.nearby "P"] := by
  decide

/-- C11, amended.  On a tick with the local player present, for a peer of the
directory (whose keys are distinct, as the keys of an object are) the branch
taken is the edge between the record of the peer and its
being in range now (`nearby` when the record is false and it is in range,
`left` when the record is true and it is out of range, none on a steady state),
and the tick records its being in range; for an id that is not in the directory
a tick takes no branch and keeps the record; no player event touches a record.
So over every sequence of ticks, moves of the local player, player events and
meeting events in which the peer stays in the directory, the branches taken for
it are the edges of its in-range signal sampled at the ticks, and they
alternate. -/
theorem proximity_edges_while_in_directory (b : Browser) (collisions : Collisions)
    (id : String) :
    (∀ (s : HookState) (player other : Sprite), s.player = some player →
      (Dict.keys s.otherPlayers).Nodup → s.otherPlayers.get id = some other →
      firedFor id (checkNearbyPlayers b collisions s).1 =
          peerEdge id (truthy (s.playerProximityState.get id))
            (isNearby player.position other.position) ∧
        (checkNearbyPlayers b collisions s).2.playerProximityState.get id =
          some (isNearby player.position other.position)) ∧
    (∀ (s : HookState), s.otherPlayers.get id = none →
      firedFor id (checkNearbyPlayers b collisions s).1 = [] ∧
        (checkNearbyPlayers b collisions s).2.playerProximityState.get id =
          s.playerProximityState.get id) ∧
    (∀ (e : PlayerEvent) (s : HookState),
      (onPlayerEvent e s).playerProximityState = s.playerProximityState) ∧
    (∀ (steps : List GameStep) (s : HookState) (other : Sprite),
      (Dict.keys s.otherPlayers).Nodup → s.otherPlayers.get id = some other →
      (∀ step ∈ steps, GameStep.replaces id step = false) →
      firedFor id (onSteps b collisions steps s).1 =
        peerEdges id (truthy (s.playerProximityState.get id))
          (nearSamples b collisions id steps s)) ∧
    (∀ (was : Bool) (samples : List Bool),
      alternatesFor id (!was) (peerEdges id was samples) = true) := by
  refine ⟨?_, ?_, ?_, ?_, ?_⟩
  · intro s player other hp hnd ho
    obtain ⟨h1, h2, -, -⟩ := checkNearbyPlayers_present b collisions s id player other hp hnd ho
    exact ⟨h1, h2⟩
  · intro s ho
    exact checkNearbyPlayers_absent b collisions s id ho
  · intro e s
    exact (onPlayerEvent_record e s).1
  · intro steps s other hnd ho hsteps
    exact firedFor_onSteps b collisions id steps s other hnd ho hsteps
  · exact alternatesFor_peerEdges id

/-- C11, amended, at the sample of the claim: the local player at `(10, 10)`, the
peer `"P"` at `(40, 10)` for two ticks, then at `(200, 10)` for two ticks: one
`nearby`, then one `left`. -/
theorem proximity_edges_while_in_directory_witness :
    (Dict.keys demoWithPeer.otherPlayers).Nodup ∧
    demoWithPeer.otherPlayers.get "P" = some (spriteFor demoGame.characterImages "P" demoPeer) ∧
    (∀ step ∈ [GameStep.tick, .tick, .playerEvent (.playerMoved demoPeerAway), .tick, .tick],
      GameStep.replaces "P" step = false) ∧
    firedFor "P"
        (onSteps demoBrowser demoGrid
          [GameStep.tick, .tick, .playerEvent (.playerMoved demoPeerAway), .tick, .tick]
          demoWithPeer).1 =
      [Fired.nearby "P", Fired.leftArea "P"] :=
  ⟨by decide, by decide, by decide,
    ((proximity_edges_while_in_directory demoBrowser demoGrid "P").2.2.2.1
      [GameStep.tick, .tick, .playerEvent (.playerMoved demoPeerAway), .tick, .tick]
      demoWithPeer (spriteFor demoGame.characterImages "P" demoPeer) (by decide) (by decide)
      (by decide)).trans (by decide)⟩

/-- C12 at a sample: the local player walks into the zone cell, stays, leaves and
comes back. -/
theorem zone_callbacks_fire_on_transitions_witness :
    demoGame.player = some demoPlayer ∧ demoGame.isInArea2 = false ∧
    zoneFired
        (onSteps demoBrowser demoGrid
          (feed [{ x := 10, y := 10 }, { x := 40, y := 40 }, { x := 50, y := 50 },
            { x := 40, y := 10 }, { x := 33, y := 33 }]) demoGame).1 =
      [Fired.initializeMeetingRoomCall, Fired.cleanupMeetingRoom,
        Fired.initializeMeetingRoomCall] ∧
    alternates true
        (zoneFired
          (onSteps demoBrowser demoGrid
            (feed [{ x := 10, y := 10 }, { x := 40, y := 40 }, { x := 50, y := 50 },
              { x := 40, y := 10 }, { x := 33, y := 33 }]) demoGame).1) = true :=
  ⟨by decide, by decide,
    ((zone_callbacks_fire_on_transitions demoBrowser demoGrid).2.1 _ demoGame demoPlayer
      (by decide)).trans (by decide),
    (zone_callbacks_fire_on_transitions demoBrowser demoGrid).2.2 _ demoGame demoPlayer
      (by decide) (by decide)⟩

/-- C14.  At the failing inputs, after the snapshot that lists `"p1"` alone (one
entry, `playerCount` 2): a `newPlayer` for `"p1"`, already present, leaves the
one entry and raises `playerCount` to 3; a `playerDisconnected` for `"ghost"`,
absent, leaves the one entry and lowers `playerCount` to 1. -/
theorem playerCount_drifts_from_directory :
    (Dict.keys demoSnapshot.otherPlayers = ["p1"] ∧ demoSnapshot.playerCount = 2) ∧
    (Dict.keys (handleNewPlayer demoInfo demoSnapshot).otherPlayers = ["p1"] ∧
      (handleNewPlayer demoInfo demoSnapshot).playerCount = 3) ∧
    (Dict.keys (handlePlayerDisconnected "ghost" demoSnapshot).otherPlayers = ["p1"] ∧
      (handlePlayerDisconnected "ghost" demoSnapshot).playerCount = 1) := by
  decide

namespace Dict

theorem keys_set_of_get_none {α : Type} (d : Dict α) (k : String) (v : α)
    (h : d.get k = none) : (d.set k v).keys = d.keys ++ [k] := by
  induction d with
  | nil => rfl
  | cons e rest ih =>
    obtain ⟨k₀, v₀⟩ := e
    by_cases h₀ : k₀ = k
    · simp [get, h₀] at h
    · have hrest : get rest k = none := by simpa [get, h₀] using h
      have := ih hrest
      simp only [keys] at this
      simp [set, h₀, keys, this]

theorem length_keys_delete {α : Type} (d : Dict α) (k : String) (v : α)
    (hnd : d.keys.Nodup) (h : d.get k = some v) :
    (d.delete k).keys.length + 1 = d.keys.length := by
  induction d with
  | nil => simp [get] at h
  | cons e rest ih =>
    obtain ⟨k₀, v₀⟩ := e
    have hcons : k₀ ∉ keys rest ∧ (keys rest).Nodup := by
      simpa [keys] using hnd
    by_cases h₀ : k₀ = k
    · subst h₀
      have hnone : get rest k₀ = none := get_eq_none_of_not_mem_keys rest k₀ hcons.1
      simp [delete, keys, delete_of_get_none rest k₀ hnone]
    · have hrest : get rest k = some v := by simpa [get, h₀] using h
      have := ih hcons.2 hrest
      simp only [keys, List.length_map] at this
      simp [delete, h₀, keys, this]

end Dict

/-- Where the two handlers do keep `playerCount` at the number of entries plus
one: a `newPlayer` for an absent id and a `playerDisconnected` for a present id
(the keys of the directory being distinct) preserve the equation. -/
theorem playerCount_kept_by_fresh_events (s : HookState)
    (hinv : s.playerCount = ((Dict.keys s.otherPlayers).length : Int) + 1) :
    (∀ playerInfo : PlayerInfo, s.characterImages.length ≠ 0 →
      s.otherPlayers.get playerInfo.id = none →
      (handleNewPlayer playerInfo s).playerCount =
        ((Dict.keys (handleNewPlayer playerInfo s).otherPlayers).length : Int) + 1) ∧
    (∀ (playerId : String) (sp : Sprite), (Dict.keys s.otherPlayers).Nodup →
      s.otherPlayers.get playerId = some sp →
      (handlePlayerDisconnected playerId s).playerCount =
        ((Dict.keys (handlePlayerDisconnected playerId s).otherPlayers).length : Int) + 1) := by
  constructor
  · intro info himg habs
    simp only [handleNewPlayer, if_neg himg, habs]
    rw [Dict.keys_set_of_get_none _ _ _ habs, hinv]
    simp
  · intro playerId sp hnd hget
    have := Dict.length_keys_delete s.otherPlayers playerId sp hnd hget
    simp only [handlePlayerDisconnected]
    rw [hinv]
    omega

/-! ## Zone exit and re-entry -/

/-- C5, as stated, fails.  An offer was sent to `"X"` and a candidate of `"X"` is
buffered; the zone is left, which leaves no session, and entered again, and
capture is refused: the listeners of the first entry are still registered with
the candidate in their buffer, and the offer that `"X"` sends next applies that
candidate to the new connection. -/
theorem refused_reentry_keeps_buffer :
    (demoBuffered.listeners.map (fun l => l.candidateQueue.get "X") = some (some ["c"]) ∧
      (cleanupMeetingRoom demoBuffered).meetingPeerConnections = []) ∧
    (onUserMedia
          (initializeMeetingRoomCall demoRefusing
            (cleanupMeetingRoom demoBuffered))).listeners.map
        (fun l => l.candidateQueue.get "X") = some (some ["c"]) ∧
    (1, PcCall.addIceCandidate "c") ∈
      (onMeetingEvent demoBrowser (.offer "X" demoOffer)
        (onUserMedia
          (initializeMeetingRoomCall demoRefusing (cleanupMeetingRoom demoBuffered)))).pcCalls := by
  decide

/-- C5, amended.  `cleanupMeetingRoom` calls `close` on every connection of the
session map, in map order, and leaves the map empty and `meetingRoomCall` at
`{ active: false, localStream: null, remoteStreams: {} }`; it leaves the meeting
listeners and the pending capture requests as they are.  The call of
`initializeMeetingRoomCall` only requests capture (or returns, without an ICE
configuration).  When the request is granted and the socket is there, the rest
of the call registers listeners with an empty candidate queue in place of any
earlier ones, and leaves the session map as it is; when it is refused, the rest
of the call changes nothing.  So an exit followed by a re-entry whose capture is
granted, with no other request pending and nothing handled in between, has no
session and no buffered candidate. -/
theorem exit_closes_sessions_granted_reentry_fresh (s : HookState) :
    ((cleanupMeetingRoom s).meetingPeerConnections = [] ∧
      (cleanupMeetingRoom s).meetingRoomCall =
        { active := false, localStream := none, remoteStreams := [] } ∧
      (cleanupMeetingRoom s).pcCalls =
        s.pcCalls ++
          s.meetingPeerConnections.map
            (fun (e : String × PeerConnection) => (e.2.handle, PcCall.close)) ∧
      (∀ (participantId : String) (pc : PeerConnection),
        (participantId, pc) ∈ s.meetingPeerConnections →
        (pc.handle, PcCall.close) ∈ (cleanupMeetingRoom s).pcCalls) ∧
      (cleanupMeetingRoom s).listeners = s.listeners ∧
      (cleanupMeetingRoom s).pendingCalls = s.pendingCalls) ∧
    (∀ (b : Browser),
      (s.iceConfig = none → initializeMeetingRoomCall b s = s) ∧
      (∀ iceConfig, s.iceConfig = some iceConfig →
        initializeMeetingRoomCall b s =
          { s with
            pendingCalls :=
              s.pendingCalls ++ [{ iceConfig := iceConfig, outcome := b.getUserMedia }] })) ∧
    (∀ (call : PendingCall) (stream : MediaStream) (self : String),
      call.outcome = some stream → s.socketId = some self →
      (resumeMeetingRoomCall call s).listeners =
          some
            { stream := stream
              iceConfig := call.iceConfig
              isInitiator := false
              candidateQueue := []
              existingParticipants := true } ∧
        (resumeMeetingRoomCall call s).meetingPeerConnections = s.meetingPeerConnections ∧
        (resumeMeetingRoomCall call s).meetingRoomCall =
          { s.meetingRoomCall with active := true, localStream := some stream }) ∧
    (∀ (call : PendingCall), call.outcome = none → resumeMeetingRoomCall call s = s) ∧
    (∀ (b : Browser) (iceConfig : IceConfig) (stream : MediaStream) (self : String),
      s.iceConfig = some iceConfig → b.getUserMedia = some stream → s.socketId = some self →
      s.pendingCalls = [] →
      (onUserMedia
          (initializeMeetingRoomCall b (cleanupMeetingRoom s))).meetingPeerConnections = [] ∧
        (onUserMedia (initializeMeetingRoomCall b (cleanupMeetingRoom s))).listeners =
          some
            { stream := stream
              iceConfig := iceConfig
              isInitiator := false
              candidateQueue := []
              existingParticipants := true } ∧
        (onUserMedia (initializeMeetingRoomCall b (cleanupMeetingRoom s))).meetingRoomCall =
          { active := true, localStream := some stream, remoteStreams := [] }) := by
  have hfields : (cleanupMeetingRoom s).meetingPeerConnections = [] ∧
      (cleanupMeetingRoom s).meetingRoomCall =
        { active := false, localStream := none, remoteStreams := [] } ∧
      (cleanupMeetingRoom s).pcCalls =
        s.pcCalls ++
          s.meetingPeerConnections.map
            (fun (e : String × PeerConnection) => (e.2.handle, PcCall.close)) ∧
      (cleanupMeetingRoom s).listeners = s.listeners ∧
      (cleanupMeetingRoom s).pendingCalls = s.pendingCalls ∧
      (cleanupMeetingRoom s).iceConfig = s.iceConfig ∧
      (cleanupMeetingRoom s).socketId = s.socketId := by
    cases hs : s.meetingRoomCall.localStream <;> cases hk : s.socketId <;>
      simp [cleanupMeetingRoom, hs, hk, emit, Dict.values]
  obtain ⟨h1, h2, h3, h4, h5, h6, h7⟩ := hfields
  refine ⟨⟨h1, h2, h3, ?_, h4, h5⟩, ?_, ?_, ?_, ?_⟩
  · intro participantId pc hmem
    rw [h3]
    exact List.mem_append_right _
      (List.mem_map.2 ⟨(participantId, pc), hmem, rfl⟩)
  · intro b
    constructor
    · intro hnone
      simp [initializeMeetingRoomCall, hnone]
    · intro iceConfig hsome
      simp [initializeMeetingRoomCall, hsome]
  · intro call stream self hout hsock
    simp [resumeMeetingRoomCall, hout, hsock, emit]
  · intro call hout
    simp [resumeMeetingRoomCall, hout]
  · intro b iceConfig stream self hice hmedia hsock hpend
    simp [onUserMedia, initializeMeetingRoomCall, resumeMeetingRoomCall, h1, h2, h5, h6, h7,
      hice, hmedia, hsock, hpend, emit]

/-- C5, amended, at a sample: the exit closes the connections of `"A"` and
`"B"`, and the granted re-entry is fresh. -/
theorem exit_closes_sessions_granted_reentry_fresh_witness :
    demoMesh.meetingPeerConnections =
      [("A", { handle := 0, remoteDescription := none, signalingState := .haveLocalOffer }),
        ("B", { handle := 1, remoteDescription := none, signalingState := .haveLocalOffer })] ∧
    (cleanupMeetingRoom demoMesh).pcCalls =
      demoMesh.pcCalls ++ [(0, PcCall.close), (1, PcCall.close)] ∧
    (demoMesh.iceConfig = some fallbackIceConfig ∧
      demoBrowser.getUserMedia = some { id := "local", tracks := ["audio", "video"] } ∧
      demoMesh.socketId = some "me" ∧ demoMesh.pendingCalls = []) ∧
    (onUserMedia
        (initializeMeetingRoomCall demoBrowser
          (cleanupMeetingRoom demoMesh))).meetingPeerConnections = [] ∧
    (onUserMedia (initializeMeetingRoomCall demoBrowser (cleanupMeetingRoom demoMesh))).listeners =
      some demoListeners :=
  ⟨by decide,
    (exit_closes_sessions_granted_reentry_fresh demoMesh).1.2.2.1.trans (by decide),
    ⟨by decide, rfl, by decide, by decide⟩,
    ((exit_closes_sessions_granted_reentry_fresh demoMesh).2.2.2.2 demoBrowser fallbackIceConfig
      { id := "local", tracks := ["audio", "video"] } "me" (by decide) rfl (by decide)
      (by decide)).1,
    ((exit_closes_sessions_granted_reentry_fresh demoMesh).2.2.2.2 demoBrowser fallbackIceConfig
      { id := "local", tracks := ["audio", "video"] } "me" (by decide) rfl (by decide)
      (by decide)).2.1⟩

/-- The local player enters the zone and leaves it before capture is granted:
the exit runs first, and when the request settles the call becomes active,
registers its listeners and emits `joinMeetingRoom`, outside the zone. -/
theorem capture_granted_after_exit_starts_call :
    (onSteps demoBrowser demoGrid
        [.movePlayer { x := 40, y := 40 }, .tick, .movePlayer { x := 10, y := 10 }, .tick,
          .userMedia] demoGame).1 =
      [Fired.initializeMeetingRoomCall, Fired.cleanupMeetingRoom] ∧
    (onSteps demoBrowser demoGrid
        [.movePlayer { x := 40, y := 40 }, .tick, .movePlayer { x := 10, y := 10 }, .tick,
          .userMedia] demoGame).2.isInArea2 = false ∧
    (onSteps demoBrowser demoGrid
        [.movePlayer { x := 40, y := 40 }, .tick, .movePlayer { x := 10, y := 10 }, .tick,
          .userMedia] demoGame).2.meetingRoomCall.active = true ∧
    (onSteps demoBrowser demoGrid
        [.movePlayer { x := 40, y := 40 }, .tick, .movePlayer { x := 10, y := 10 }, .tick,
          .userMedia] demoGame).2.listeners = some demoListeners ∧
    (onSteps demoBrowser demoGrid
        [.movePlayer { x := 40, y := 40 }, .tick, .movePlayer { x := 10, y := 10 }, .tick,
          .userMedia] demoGame).2.emitted = [Emit.leaveMeetingRoom, Emit.joinMeetingRoom] := by
  decide

end UseGame
